import Mathlib

/-!
Verification of the outbound-call provisioning and dispatch workflow of the
`test_sip` repository.  The Python sources are shallowly embedded as Lean
definitions: strings are Lean `String`s viewed through their `data` char
lists, regular-expression checks are translated into explicit character
predicates (Python's `\d` is modelled both in full — Unicode category Nd,
`isPyDigit` — and by its ASCII restriction `isDigitChar`, exact on ASCII
inputs), stateful REST workflows become explicit state passing, and
fallible code returns `Except`.
-/

/-- ASCII restriction of Python's str-pattern `\d`: `'0' ≤ c ∧ c ≤ '9'`,
expressed on code points 48–57.  Python's `\d` matches every Unicode
decimal digit (category Nd); `isPyDigit` below is that full model, and the
two agree on ASCII characters (`isPyDigit_ascii`).  The definitions built
on `isDigitChar` are exact for ASCII inputs. -/
def isDigitChar (c : Char) : Bool := decide (48 ≤ c.toNat ∧ c.toNat ≤ 57)

/-- Translation of `validate_phone_number` from `src/utils/validators.py`:
`bool(re.match(r'^\+[1-9]\d\x7b1,14\x7d$', phone_number))`.  Python's `re.match`
anchors at the start, and `$` (without `re.MULTILINE`) matches at the end of
the string or just before a single trailing newline, so the tail after the
leading digit must be 1–14 digits followed by nothing or by one `'\n'`;
`e164Core` is that optional-newline trimming of the digit run. -/
def e164Core (rest : List Char) : List Char :=
  if rest.getLast? = some '\n' then rest.dropLast else rest

/-- Character-list level validator (the match is on the list shape; the
`'+'` test is a boolean so that the equations reduce for symbolic heads). -/
def validateChars : List Char → Bool
  | a :: d :: rest =>
      decide (a = '+') && decide (49 ≤ d.toNat ∧ d.toNat ≤ 57) &&
      ((e164Core rest).all isDigitChar &&
       decide (1 ≤ (e164Core rest).length ∧ (e164Core rest).length ≤ 14))
  | _ => false

/-- String-level wrapper of `validateChars`. -/
def validate_phone_number (s : String) : Bool := validateChars s.data

/-- Translation of `format_phone_number` from `src/utils/validators.py`:
`cleaned = re.sub(r'[^\d+]', '', phone_number)` keeps every character that is
a digit or a `'+'` (note: the regex spares every `'+'`, not only a leading
one), then `'+'` is prepended when `cleaned` does not already start with it.
`keepChar` is the translation of the character class `[^\d+]` complement. -/
def keepChar (c : Char) : Bool := isDigitChar c || decide (c = '+')

/-- Character-list level formatter. -/
def formatChars (l : List Char) : List Char :=
  if (l.filter keepChar).head? = some '+' then l.filter keepChar
  else '+' :: l.filter keepChar

/-- String-level wrapper of `formatChars`. -/
def format_phone_number (s : String) : String := ⟨formatChars s.data⟩

/-- The E.164 shape exactly as the spec words it (`+`, a first digit 1–9,
and 1–14 further digits); used to compare the implemented validator against
the specified one. -/
def isE164Chars : List Char → Bool
  | a :: d :: rest =>
      decide (a = '+') && decide (49 ≤ d.toNat ∧ d.toNat ≤ 57) &&
      (rest.all isDigitChar && decide (1 ≤ rest.length ∧ rest.length ≤ 14))
  | _ => false

/-- String-level wrapper of `isE164Chars`. -/
def isE164Spec (s : String) : Bool := isE164Chars s.data

/-- Removes one trailing newline when present; captures the extra strings
admitted by Python's `$` anchor. -/
def stripTrailingLf (s : String) : String :=
  if s.data.getLast? = some '\n' then ⟨s.data.dropLast⟩ else s

-- Sanity examples, mirroring the spec's test vectors.
example : validate_phone_number "+14155551234" = true := by decide
example : validate_phone_number "4155551234" = false := by decide
example : validate_phone_number "+0123" = false := by decide
example : validate_phone_number "+123456789012345678" = false := by decide
example : validate_phone_number "+123\n" = true := by decide
example : format_phone_number "1+2" = "+1+2" := by decide
example : format_phone_number "(415) 555-1234" = "+4155551234" := by decide
example : format_phone_number "" = "+" := by decide

/-! ## A model of the JSON channel between the dispatcher and the worker

`DispatchService.dispatch_outbound_call` serializes the dispatch metadata
with `json.dumps(\x7b"phone_number": phone_number\x7d)` and the worker entrypoints
(`src/voice_agent.py`, `src/agent/agent.py`) recover it with `json.loads`.
Both functions come from the Python standard library, so they are modelled
here: `Json` is the value universe, `jsonParse` a parser for the JSON
grammar accepted by `json.loads` (objects, arrays, strings with escapes,
numbers including the `NaN`/`Infinity` extensions, keywords), and
`jsonDumpsPhone` the exact serialization `json.dumps` produces for a
one-key dictionary holding a string that needs no escaping. -/

inductive Json where
  | null : Json
  | bool (b : Bool) : Json
  | num (raw : String) : Json
  | str (s : String) : Json
  | arr (xs : List Json) : Json
  | obj (kvs : List (String × Json)) : Json

/-- The double-quote character, written by code point. -/
def quoteChar : Char := Char.ofNat 34

/-- The backslash character, written by code point. -/
def backslashChar : Char := Char.ofNat 92

/-- The opening-brace character, written by code point. -/
def lbraceChar : Char := Char.ofNat 123

/-- The closing-brace character, written by code point. -/
def rbraceChar : Char := Char.ofNat 125

/-- JSON insignificant whitespace, as accepted by `json.loads`. -/
def isJsonWs (c : Char) : Bool := c = ' ' || c = '\t' || c = '\n' || c = '\r'

/-- Drops leading JSON whitespace. -/
def skipWs : List Char → List Char
  | [] => []
  | c :: cs => if isJsonWs c then skipWs cs else c :: cs

/-- Short escapes accepted after a backslash in a JSON string. -/
def escChar (c : Char) : Option Char :=
  if c = quoteChar then some quoteChar
  else if c = backslashChar then some backslashChar
  else if c = '/' then some '/'
  else if c = 'b' then some (Char.ofNat 8)
  else if c = 'f' then some (Char.ofNat 12)
  else if c = 'n' then some '\n'
  else if c = 'r' then some '\r'
  else if c = 't' then some '\t'
  else none

/-- Hexadecimal digit value. -/
def hexVal (c : Char) : Option Nat :=
  if 48 ≤ c.toNat ∧ c.toNat ≤ 57 then some (c.toNat - 48)
  else if 97 ≤ c.toNat ∧ c.toNat ≤ 102 then some (c.toNat - 87)
  else if 65 ≤ c.toNat ∧ c.toNat ≤ 70 then some (c.toNat - 55)
  else none

/-- Scans the body of a JSON string literal (after the opening quote) up to
the closing quote, decoding escapes; raw control characters below 0x20 are
rejected, as `json.loads` does in strict mode. -/
def scanStr : List Char → Option (List Char × List Char)
  | [] => none
  | c :: cs =>
    if c = quoteChar then some ([], cs)
    else if c = backslashChar then
      match cs with
      | [] => none
      | e :: cs' =>
        if e = 'u' then
          match cs' with
          | h1 :: h2 :: h3 :: h4 :: cs'' =>
            match hexVal h1, hexVal h2, hexVal h3, hexVal h4 with
            | some a, some b, some c2, some d =>
              (scanStr cs'').map (fun r => (Char.ofNat (((a * 16 + b) * 16 + c2) * 16 + d) :: r.1, r.2))
            | _, _, _, _ => none
          | _ => none
        else
          match escChar e with
          | some ec => (scanStr cs').map (fun r => (ec :: r.1, r.2))
          | none => none
    else if c.toNat < 32 then none
    else (scanStr cs).map (fun r => (c :: r.1, r.2))

/-- Longest digit prefix. -/
def takeDigits : List Char → List Char × List Char
  | [] => ([], [])
  | c :: cs =>
    if isDigitChar c then
      let r := takeDigits cs
      (c :: r.1, r.2)
    else ([], c :: cs)

/-- Matches the expected literal characters and returns the remainder. -/
def stripLit : List Char → List Char → Option (List Char)
  | [], cs => some cs
  | _ :: _, [] => none
  | p :: ps, c :: cs => if c = p then stripLit ps cs else none

/-- Optional fraction part `.digits` of a JSON number (raw characters). -/
def scanFrac : List Char → Option (List Char × List Char)
  | '.' :: t =>
    match takeDigits t with
    | ([], _) => none
    | (ds, r) => some ('.' :: ds, r)
  | cs => some ([], cs)

/-- Optional exponent part `[eE][+-]?digits` of a JSON number. -/
def scanExp : List Char → Option (List Char × List Char)
  | [] => some ([], [])
  | c :: t =>
    if c = 'e' ∨ c = 'E' then
      let st := match t with
        | '+' :: u => (['+'], u)
        | '-' :: u => (['-'], u)
        | _ => ([], t)
      match takeDigits st.2 with
      | ([], _) => none
      | (ds, r) => some (c :: (st.1 ++ ds), r)
    else some ([], c :: t)

/-- Parses a JSON number token (sign, integer part without superfluous
leading zero, optional fraction and exponent); the raw lexeme is kept. -/
def parseNum (cs : List Char) : Option (Json × List Char) :=
  let sg := match cs with
    | '-' :: t => (['-'], t)
    | _ => (([] : List Char), cs)
  match takeDigits sg.2 with
  | ([], _) => none
  | (ip, cs2) =>
    if ip.head? = some '0' ∧ ip.length ≠ 1 then none
    else
      match scanFrac cs2 with
      | none => none
      | some (fp, cs3) =>
        match scanExp cs3 with
        | none => none
        | some (ep, cs4) => some (.num ⟨sg.1 ++ ip ++ fp ++ ep⟩, cs4)

mutual

/-- Parses one JSON value (fuel-bounded recursion; `jsonParse` supplies
enough fuel for any input). -/
def parseVal : Nat → List Char → Option (Json × List Char)
  | 0, _ => none
  | fuel + 1, cs =>
    match skipWs cs with
    | [] => none
    | c :: rest =>
      if c = quoteChar then (scanStr rest).map (fun r => (.str ⟨r.1⟩, r.2))
      else if c = lbraceChar then
        match skipWs rest with
        | [] => none
        | c2 :: rest2 =>
          if c2 = rbraceChar then some (.obj [], rest2)
          else parseObjBody fuel (c2 :: rest2) []
      else if c = '[' then
        match skipWs rest with
        | [] => none
        | c2 :: rest2 =>
          if c2 = ']' then some (.arr [], rest2)
          else parseArrBody fuel (c2 :: rest2) []
      else if c = 't' then (stripLit "rue".data rest).map (fun r => (.bool true, r))
      else if c = 'f' then (stripLit "alse".data rest).map (fun r => (.bool false, r))
      else if c = 'n' then (stripLit "ull".data rest).map (fun r => (.null, r))
      else if c = 'N' then (stripLit "aN".data rest).map (fun r => (.num "NaN", r))
      else if c = 'I' then (stripLit "nfinity".data rest).map (fun r => (.num "Infinity", r))
      else if c = '-' then
        match rest with
        | 'I' :: rest2 => (stripLit "nfinity".data rest2).map (fun r => (.num "-Infinity", r))
        | _ => parseNum (c :: rest)
      else parseNum (c :: rest)

/-- Parses the members of a JSON object, after `\x7b` or after a comma. -/
def parseObjBody : Nat → List Char → List (String × Json) → Option (Json × List Char)
  | 0, _, _ => none
  | fuel + 1, cs, acc =>
    match skipWs cs with
    | [] => none
    | c :: rest =>
      if c = quoteChar then
        match scanStr rest with
        | none => none
        | some (key, rest1) =>
          match skipWs rest1 with
          | [] => none
          | c2 :: rest2 =>
            if c2 = ':' then
              match parseVal fuel rest2 with
              | none => none
              | some (v, rest3) =>
                match skipWs rest3 with
                | [] => none
                | c3 :: rest4 =>
                  if c3 = ',' then parseObjBody fuel rest4 (acc ++ [(⟨key⟩, v)])
                  else if c3 = rbraceChar then some (.obj (acc ++ [(⟨key⟩, v)]), rest4)
                  else none
            else none
      else none

/-- Parses the elements of a JSON array, after `[` or after a comma. -/
def parseArrBody : Nat → List Char → List Json → Option (Json × List Char)
  | 0, _, _ => none
  | fuel + 1, cs, acc =>
    match parseVal fuel cs with
    | none => none
    | some (v, rest) =>
      match skipWs rest with
      | [] => none
      | c :: rest2 =>
        if c = ',' then parseArrBody fuel rest2 (acc ++ [v])
        else if c = ']' then some (.arr (acc ++ [v]), rest2)
        else none

end

/-- Model of `json.loads`: parse one value and require only whitespace to
remain.  The fuel `length + 1` is sufficient because every recursive parser
call consumes at least one input character first. -/
def jsonParse (s : String) : Option Json :=
  match parseVal (s.data.length + 1) s.data with
  | some (v, rest) => if skipWs rest = [] then some v else none
  | none => none

/-- The exact text `json.dumps(\x7b"phone_number": p\x7d)` produces when `p`
needs no escaping (true of every formatted phone number, which consists of
digits and `'+'` only). -/
def jsonDumpsPhone (p : String) : String :=
  "\x7b\"phone_number\": \"" ++ p ++ "\"\x7d"

-- Sanity checks of the JSON model.
example : jsonParse "\x7b\"phone_number\": \"+14155551234\"\x7d"
    = some (.obj [("phone_number", .str "+14155551234")]) := rfl
example : jsonParse "not json" = none := rfl
example : jsonParse "" = none := rfl
example : jsonParse "[1, 2]" = some (.arr [.num "1", .num "2"]) := rfl
example : jsonParse "null" = some .null := rfl
example : jsonParse "-12.5e3" = some (.num "-12.5e3") := rfl
example : jsonParse "01" = none := rfl

/-! ## Worker entrypoint (metadata handling)

`entrypoint` in `src/voice_agent.py` and `src/agent/agent.py` (lines 46–94
resp. 35–87) handle job metadata identically:

    phone_number = None
    if ctx.job.metadata:
        try:
            metadata = json.loads(ctx.job.metadata)
            phone_number = metadata.get("phone_number")
        except json.JSONDecodeError:
            pass
    ...
    if not phone_number: await session.generate_reply("Hello! ...")

The observable outcome modelled here is which call mode is selected
(inbound = proactive greeting, outbound = silent wait carrying the parsed
value).  `json.loads` succeeding with a non-dict value makes the subsequent
`.get` raise an uncaught `AttributeError`; that path is the `Except.error`
case. -/

/-- Python `dict.get` on the dictionary produced by `json.loads`: with
duplicate keys the last binding wins, absent key yields `None`. -/
def dictGet (k : String) (kvs : List (String × Json)) : Option Json :=
  kvs.foldl (fun acc kv => if kv.1 = k then some kv.2 else acc) none

/-- Python truthiness of a decoded JSON value (`if not phone_number`).
A number is falsy exactly when its mantissa has no nonzero digit
(`0`, `-0.00`, `0e5`, ...); `NaN` and the infinities are truthy.  Float
underflow is not modelled (`1e-400` equals `0.0` in Python and is falsy
there); no theorem below depends on the truthiness of numbers. -/
def jsonTruthy : Json → Bool
  | .null => false
  | .bool b => b
  | .num raw =>
      (raw.data.takeWhile (fun c => c ≠ 'e' ∧ c ≠ 'E')).any
        (fun c => isDigitChar c && c ≠ '0')
      || raw = "NaN" || raw = "Infinity" || raw = "-Infinity"
  | .str s => s ≠ ""
  | .arr xs => !xs.isEmpty
  | .obj kvs => !kvs.isEmpty

/-- The behaviour selected by the worker once metadata is handled:
`inbound` generates a proactive greeting, `outbound` waits for the callee
and carries the recovered `phone_number` value. -/
inductive CallMode where
  | inbound : CallMode
  | outbound (phone : Json) : CallMode

/-- The proactive greeting the entrypoint generates: only the inbound
branch calls `session.generate_reply`. -/
def greetingOf : CallMode → Option String
  | .inbound => some "Hello! This is your AI assistant. How can I help you today?"
  | .outbound _ => none

/-- Metadata handling of the worker entrypoints (`src/voice_agent.py` and
`src/agent/agent.py`): `none`/empty metadata skips parsing, a parse error
is swallowed (`except json.JSONDecodeError: pass`), a decoded dictionary is
queried for `"phone_number"`, and a decoded non-dictionary value makes
`metadata.get` raise an uncaught `AttributeError` (`Except.error ()`). -/
def entrypointMode (metadata : Option String) : Except Unit CallMode :=
  let pn : Except Unit (Option Json) :=
    match metadata with
    | none => .ok none
    | some m =>
      if m = "" then .ok none
      else
        match jsonParse m with
        | none => .ok none
        | some (.obj kvs) => .ok (dictGet "phone_number" kvs)
        | some _ => .error ()
  match pn with
  | .error e => .error e
  | .ok pnv =>
    .ok (match pnv with
         | some v => if jsonTruthy v then .outbound v else .inbound
         | none => .inbound)

example : entrypointMode (some "\x7b\"phone_number\": \"+14155551234\"\x7d")
    = .ok (.outbound (.str "+14155551234")) := rfl
example : entrypointMode (some "garbage") = .ok .inbound := rfl
example : entrypointMode none = .ok .inbound := rfl
example : entrypointMode (some "[1]") = .error () := rfl

/-! ## Dispatch service and SIP manager

`DispatchService.dispatch_outbound_call` (src/services/dispatch_service.py)
and `SIPManager.create_outbound_call` (src/services/sip_manager.py) both
normalize then validate the phone number, raising `ValueError` before
anything is sent when validation fails; on the success path they issue one
remote request, which the embedding returns as a value.  Remote-supplied
data (the generated `uuid4().hex` string and the dispatch id assigned by
the platform) are passed in as parameters. -/

structure CreateAgentDispatchRequest where
  agent_name : String
  room : String
  metadata : String
deriving DecidableEq

/-- The dictionary `dispatch_outbound_call` returns on success. -/
structure DispatchInfo where
  dispatch_id : String
  room_name : String
  phone_number : String
  agent_name : String
deriving DecidableEq

structure CreateSIPParticipantRequest where
  sip_trunk_id : Option String
  sip_call_to : String
  room_name : String
  participant_identity : String
  participant_name : String
deriving DecidableEq

/-- Translation of `DispatchService.dispatch_outbound_call`.  `uuidHex`
models the `uuid.uuid4().hex` string consumed for room-name generation
(`[:8]` becomes `List.take 8`), `defaultAgentName` the configured
`AGENT_NAME`, and `remoteDispatchId` the `dispatch.id` the platform
assigns.  The returned pair is (request sent, result dictionary); the
`ValueError` path returns before any request exists. -/
def dispatch_outbound_call (phone_number : String)
    (room_name agent_name : Option String)
    (uuidHex : String) (defaultAgentName : String) (remoteDispatchId : String) :
    Except String (CreateAgentDispatchRequest × DispatchInfo) :=
  let phone := format_phone_number phone_number
  if validate_phone_number phone = false then
    .error ("Invalid phone number format: " ++ phone)
  else
    let room := match room_name with
      | some r => if r = "" then "outbound-call-" ++ String.mk (uuidHex.data.take 8) else r
      | none => "outbound-call-" ++ String.mk (uuidHex.data.take 8)
    let agent := match agent_name with
      | some a => if a = "" then defaultAgentName else a
      | none => defaultAgentName
    let metadata := jsonDumpsPhone phone
    .ok (⟨agent, room, metadata⟩, ⟨remoteDispatchId, room, phone, agent⟩)

/-- Translation of `SIPManager.create_outbound_call`: normalize, validate
(raising `ValueError` first), then issue one `CreateSIPParticipantRequest`
with the defaulted participant identity and name. -/
def create_outbound_call (phone_number room_name trunk_id : String)
    (participant_identity participant_name : Option String) :
    Except String CreateSIPParticipantRequest :=
  let phone := format_phone_number phone_number
  if validate_phone_number phone = false then
    .error ("Invalid phone number format: " ++ phone)
  else
    .ok ⟨some trunk_id, phone, room_name,
      (match participant_identity with
       | some i => if i = "" then "caller-" ++ phone else i
       | none => "caller-" ++ phone),
      (match participant_name with
       | some n => if n = "" then phone else n
       | none => phone)⟩

/-- The room-name pattern of the spec: `outbound-call-` followed by exactly
8 hexadecimal characters. -/
def isOutboundRoomName (s : String) : Bool :=
  match stripLit "outbound-call-".data s.data with
  | some rest => rest.length = 8 && rest.all (fun c => (hexVal c).isSome)
  | none => false

example : dispatch_outbound_call "12345" none none
    "0123456789abcdef0123456789abcdef" "telephony-agent" "AD_1"
    = .ok (⟨"telephony-agent", "outbound-call-01234567",
            "\x7b\"phone_number\": \"+12345\"\x7d"⟩,
           ⟨"AD_1", "outbound-call-01234567", "+12345", "telephony-agent"⟩) := rfl
example : create_outbound_call "0123" "room-1" "ST_x" none none
    = .error "Invalid phone number format: +0123" := rfl
example : isOutboundRoomName "outbound-call-01234567" = true := rfl
example : isOutboundRoomName "outbound-call-0123456" = false := rfl

/-! ## Test-call workflows

`make_test_call` in `src/scripts/test_call.py` dispatches the agent, waits
a fixed `asyncio.sleep(5)`, resolves the trunk id (CLI argument, else the
`LIVEKIT_OUTBOUND_TRUNK_ID` environment value, else `ValueError`), and then
creates the SIP participant in the dispatched room.  `make_call` in
`src/test_outbound.py` inlines the same shape without any validation.
Each run is modelled as the ordered list of externally visible events plus
the script outcome. -/

inductive CallEvent where
  | dispatchCreate (req : CreateAgentDispatchRequest) : CallEvent
  | sleepSeconds (n : Nat) : CallEvent
  | sipCreate (req : CreateSIPParticipantRequest) : CallEvent
deriving DecidableEq

/-- Resolution of a possibly-absent, possibly-empty string through Python
falsiness (`if not x`). -/
def truthyOpt (x : Option String) : Option String :=
  match x with
  | some v => if v = "" then none else some v
  | none => none

/-- Translation of `make_test_call` from `src/scripts/test_call.py`:
step 1 dispatch (its `ValueError` aborts before any event), a fixed
five-second sleep, trunk-id resolution, then step 2 SIP participant
creation in `dispatch_info['room_name']`. -/
def make_test_call (phone_number : String) (trunk_id : Option String)
    (envTrunkId : Option String) (uuidHex defaultAgentName remoteDispatchId : String) :
    List CallEvent × Except String Unit :=
  match dispatch_outbound_call phone_number none none uuidHex defaultAgentName remoteDispatchId with
  | .error e => ([], .error e)
  | .ok (req, info) =>
    let evs := [CallEvent.dispatchCreate req, CallEvent.sleepSeconds 5]
    match (truthyOpt trunk_id).orElse (fun _ => truthyOpt envTrunkId) with
    | none => (evs, .error "No trunk_id provided and LIVEKIT_OUTBOUND_TRUNK_ID not set in .env")
    | some t =>
      match create_outbound_call phone_number info.room_name t none none with
      | .error e => (evs, .error e)
      | .ok sipReq => (evs ++ [CallEvent.sipCreate sipReq], .ok ())

/-- Translation of `make_call` from `src/test_outbound.py`: generates the
room name, dispatches `telephony-agent` with the serialized metadata,
sleeps five seconds, and creates the SIP participant in the same room —
with no validation and no trunk presence check (`os.getenv` may be `None`). -/
def make_call (phone_number : String) (uuidHex : String)
    (envTrunkId : Option String) : List CallEvent × Except String Unit :=
  let room := "outbound-call-" ++ String.mk (uuidHex.data.take 8)
  let metadata := jsonDumpsPhone phone_number
  ([CallEvent.dispatchCreate ⟨"telephony-agent", room, metadata⟩,
    CallEvent.sleepSeconds 5,
    CallEvent.sipCreate ⟨envTrunkId, phone_number, room,
      "caller-" ++ phone_number, phone_number⟩], .ok ())

example : (make_test_call "+14155551234" none (some "ST_1")
    "0123456789abcdef0123456789abcdef" "telephony-agent" "AD_1").2 = .ok () := rfl
example : (make_test_call "+14155551234" none none
    "0123456789abcdef0123456789abcdef" "telephony-agent" "AD_1").2
    = .error "No trunk_id provided and LIVEKIT_OUTBOUND_TRUNK_ID not set in .env" := rfl

/-! ## Telephony-provider (Twilio) trunk provisioning

State of record on the provider side, as touched by the two provisioning
scripts: SIP trunks (with associated credential-list sids, origination
URLs and phone numbers), standalone credential lists, and the account's
purchased incoming phone numbers.  Server-assigned sids are modelled with
a counter.  Each remote `create` call is logged as a `TwilioReq`. -/

structure SipCredential where
  username : String
  password : String
deriving DecidableEq

structure CredentialList where
  sid : String
  friendly_name : String
  credentials : List SipCredential
deriving DecidableEq

structure OriginationUrl where
  friendly_name : String
  sip_url : String
  priority : Nat
  weight : Nat
  enabled : Bool
deriving DecidableEq

structure TrunkPhone where
  phone_number : String
  phone_sid : String
deriving DecidableEq

structure SipTrunk where
  sid : String
  friendly_name : String
  domain_name : String
  credListSids : List String
  originationUrls : List OriginationUrl
  phoneNumbers : List TrunkPhone
deriving DecidableEq

structure IncomingPhone where
  sid : String
  phone_number : String
deriving DecidableEq

structure TwilioState where
  trunks : List SipTrunk
  credentialLists : List CredentialList
  incomingPhones : List IncomingPhone
  nextSid : Nat
deriving DecidableEq

/-- Remote creation requests issued against the provider. -/
inductive TwilioReq where
  | createTrunk (friendly domain : String) : TwilioReq
  | createCredentialList (friendly : String) : TwilioReq
  | createCredential (listSid u p : String) : TwilioReq
  | associateCredList (trunkSid listSid : String) : TwilioReq
  | createOriginationUrl (trunkSid sipUrl : String) : TwilioReq
  | associatePhone (trunkSid phoneSid : String) : TwilioReq
deriving DecidableEq

/-- Server-assigned sid for the `n`-th created resource. -/
def freshSid (n : Nat) : String := "SID" ++ toString n

/-- ASCII lowering of a string (model of Python `str.lower`). -/
def strToLower (s : String) : String := ⟨s.data.map Char.toLower⟩

/-- Substring test (model of Python `needle in hay`). -/
def hasInfix (hay needle : List Char) : Bool :=
  match hay with
  | [] => needle.isEmpty
  | c :: t => needle.isPrefixOf (c :: t) || hasInfix t needle

/-- String-level substring test. -/
def strContainsSub (hay needle : String) : Bool := hasInfix hay.data needle.data

/-- Rewrites the first list element satisfying `p` (Twilio resources are
addressed by their unique server-side sid; lookups and updates consistently
take the first match). -/
def updateFirst {α : Type} (p : α → Bool) (f : α → α) : List α → List α
  | [] => []
  | x :: xs => if p x then f x :: xs else x :: updateFirst p f xs

/-- `client.sip.credential_lists.list()` search used by the auto-update
script: the first list whose lowered friendly name contains `"livekit"`. -/
def findCredListByName (s : TwilioState) : Option CredentialList :=
  s.credentialLists.find? (fun cl => strContainsSub (strToLower cl.friendly_name) "livekit")

/-- Credential-list lookup by sid. -/
def findCredListBySid (s : TwilioState) (sid : String) : Option CredentialList :=
  s.credentialLists.find? (fun cl => cl.sid == sid)

/-- Trunk lookup by sid. -/
def findTrunk (s : TwilioState) (sid : String) : Option SipTrunk :=
  s.trunks.find? (fun t => t.sid == sid)

/-- Applies `f` to the trunk addressed by `sid`. -/
def updateTrunk (s : TwilioState) (sid : String) (f : SipTrunk → SipTrunk) : TwilioState :=
  ⟨updateFirst (fun t => t.sid == sid) f s.trunks, s.credentialLists, s.incomingPhones, s.nextSid⟩

/-- The fixed LiveKit SIP ingress URI used by `update_twilio_trunk_auto.py`. -/
def livekitSipUri : String := "sip:sip.livekit.cloud"

/-! ### Automated trunk update (`src/scripts/update_twilio_trunk_auto.py`)

Each block of the script becomes one step function returning the updated
state and the creation requests issued; the module body composes them. -/

/-- Step 1: find a credential list whose lowered name contains `"livekit"`,
else create `"LiveKit SIP Credentials"`; yields the sid used downstream. -/
def autoStepCredList (s : TwilioState) : TwilioState × List TwilioReq × String :=
  match findCredListByName s with
  | some cl => (s, [], cl.sid)
  | none =>
    let sid := freshSid s.nextSid
    (⟨s.trunks, s.credentialLists ++ [⟨sid, "LiveKit SIP Credentials", []⟩],
      s.incomingPhones, s.nextSid + 1⟩,
     [.createCredentialList "LiveKit SIP Credentials"], sid)

/-- Step 2: list the credentials of the chosen list and add the configured
username/password pair unless a credential with that username exists. -/
def autoStepCredential (u p clSid : String) (s : TwilioState) : TwilioState × List TwilioReq :=
  let creds := ((findCredListBySid s clSid).map (fun cl => cl.credentials)).getD []
  if creds.any (fun c => c.username == u) then (s, [])
  else
    (⟨s.trunks,
      updateFirst (fun cl => cl.sid == clSid)
        (fun cl => ⟨cl.sid, cl.friendly_name, cl.credentials ++ [⟨u, p⟩]⟩)
        s.credentialLists,
      s.incomingPhones, s.nextSid⟩,
     [.createCredential clSid u p])

/-- Step 3: associate the credential list with the trunk unless already
associated.  The script wraps this block in `try/except` that only warns,
so a failing trunk lookup falls through without effect. -/
def autoStepAssoc (trunkSid clSid : String) (s : TwilioState) : TwilioState × List TwilioReq :=
  match findTrunk s trunkSid with
  | none => (s, [])
  | some tr =>
    if tr.credListSids.any (fun x => x == clSid) then (s, [])
    else
      (updateTrunk s trunkSid
         (fun t => ⟨t.sid, t.friendly_name, t.domain_name,
                    t.credListSids ++ [clSid], t.originationUrls, t.phoneNumbers⟩),
       [.associateCredList trunkSid clSid])

/-- Step 4: create the LiveKit origination URL unless some URL already
contains the LiveKit URI; a failing trunk lookup aborts the script. -/
def autoStepOrigUrl (trunkSid : String) (s : TwilioState) :
    Option (TwilioState × List TwilioReq) :=
  match findTrunk s trunkSid with
  | none => none
  | some tr =>
    if tr.originationUrls.any (fun u => strContainsSub u.sip_url livekitSipUri) then
      some (s, [])
    else
      some (updateTrunk s trunkSid
              (fun t => ⟨t.sid, t.friendly_name, t.domain_name, t.credListSids,
                         t.originationUrls ++ [⟨"LiveKit SIP URI", livekitSipUri, 1, 1, true⟩],
                         t.phoneNumbers⟩),
            [.createOriginationUrl trunkSid livekitSipUri])

/-- Step 5: when a phone number is configured, associate it with the trunk
unless already present; lookup in the account's incoming numbers supplies
the sid, and an absent number is only logged. -/
def autoStepPhone (trunkSid : String) (phone : Option String) (s : TwilioState) :
    Option (TwilioState × List TwilioReq) :=
  match truthyOpt phone with
  | none => some (s, [])
  | some ph =>
    match findTrunk s trunkSid with
    | none => none
    | some tr =>
      if tr.phoneNumbers.any (fun tn => tn.phone_number == ph) then some (s, [])
      else
        match (s.incomingPhones.filter (fun ip => ip.phone_number == ph)).head? with
        | none => some (s, [])
        | some ip =>
          some (updateTrunk s trunkSid
                  (fun t => ⟨t.sid, t.friendly_name, t.domain_name, t.credListSids,
                             t.originationUrls,
                             t.phoneNumbers ++ [⟨ip.phone_number, ip.sid⟩]⟩),
                [.associatePhone trunkSid ip.sid])

/-- Configuration consumed by `update_twilio_trunk_auto.py` (environment
values `TWILIO_SIP_TRUNK_SID`, `TWILIO_SIP_USERNAME`, `TWILIO_SIP_PASSWORD`,
`TWILIO_PHONE_NUMBER`). -/
structure AutoUpdateCfg where
  trunkSid : String
  sipUsername : String
  sipPassword : String
  phoneNumber : Option String
deriving DecidableEq

/-- The module body of `update_twilio_trunk_auto.py`: the five steps run in
sequence; `none` models the script exiting on an uncaught remote error
(missing trunk).  On success it returns the final provider state and every
creation request issued. -/
def runAutoUpdate (cfg : AutoUpdateCfg) (s0 : TwilioState) :
    Option (TwilioState × List TwilioReq) :=
  match autoStepCredList s0 with
  | (s1, r1, clSid) =>
    match autoStepCredential cfg.sipUsername cfg.sipPassword clSid s1 with
    | (s2, r2) =>
      match autoStepAssoc cfg.trunkSid clSid s2 with
      | (s3, r3) =>
        match autoStepOrigUrl cfg.trunkSid s3 with
        | none => none
        | some (s4, r4) =>
          match autoStepPhone cfg.trunkSid cfg.phoneNumber s4 with
          | none => none
          | some (s5, r5) => some (s5, r1 ++ r2 ++ r3 ++ r4 ++ r5)

/-! ### One-shot trunk setup (`src/scripts/setup_twilio_trunk.py`)

`create_twilio_trunk` performs six creation steps with no lookup before any
create (only the optional phone association reads the account's numbers to
obtain a sid). -/

/-- Translation of `create_twilio_trunk`: create trunk, create credential
list, add credential, associate list, create origination URL, and
optionally associate the configured phone number. -/
def create_twilio_trunk (trunk_name domain_name livekit_sip_uri username password : String)
    (twilioPhoneNumber : Option String) (s : TwilioState) :
    TwilioState × List TwilioReq :=
  let trunkSid := freshSid s.nextSid
  let credListSid := freshSid (s.nextSid + 1)
  let credListName := trunk_name ++ "-credentials"
  let s1 : TwilioState :=
    ⟨s.trunks ++ [⟨trunkSid, trunk_name, domain_name, [], [], []⟩],
     s.credentialLists ++ [⟨credListSid, credListName, []⟩],
     s.incomingPhones, s.nextSid + 2⟩
  let s2 : TwilioState :=
    ⟨s1.trunks,
     updateFirst (fun cl => cl.sid == credListSid)
       (fun cl => ⟨cl.sid, cl.friendly_name, cl.credentials ++ [⟨username, password⟩]⟩)
       s1.credentialLists,
     s1.incomingPhones, s1.nextSid⟩
  let s3 := updateTrunk s2 trunkSid
    (fun t => ⟨t.sid, t.friendly_name, t.domain_name,
               t.credListSids ++ [credListSid], t.originationUrls, t.phoneNumbers⟩)
  let s4 := updateTrunk s3 trunkSid
    (fun t => ⟨t.sid, t.friendly_name, t.domain_name, t.credListSids,
               t.originationUrls ++ [⟨"LiveKit SIP URI", livekit_sip_uri, 1, 1, true⟩],
               t.phoneNumbers⟩)
  let baseReqs : List TwilioReq :=
    [.createTrunk trunk_name domain_name,
     .createCredentialList credListName,
     .createCredential credListSid username password,
     .associateCredList trunkSid credListSid,
     .createOriginationUrl trunkSid livekit_sip_uri]
  match truthyOpt twilioPhoneNumber with
  | none => (s4, baseReqs)
  | some ph =>
    match (s4.incomingPhones.filter (fun ip => ip.phone_number == ph)).head? with
    | none => (s4, baseReqs)
    | some ip =>
      (updateTrunk s4 trunkSid
         (fun t => ⟨t.sid, t.friendly_name, t.domain_name, t.credListSids,
                    t.originationUrls,
                    t.phoneNumbers ++ [⟨ip.phone_number, ip.sid⟩]⟩),
       baseReqs ++ [.associatePhone trunkSid ip.sid])

/-! ## Lemmas about the validator and the formatter -/

theorem string_mk_data (l : List Char) : (String.mk l).data = l := rfl

theorem validateChars_cons (a d : Char) (rest : List Char) :
    validateChars (a :: d :: rest) =
      (decide (a = '+') && decide (49 ≤ d.toNat ∧ d.toNat ≤ 57) &&
       ((e164Core rest).all isDigitChar &&
        decide (1 ≤ (e164Core rest).length ∧ (e164Core rest).length ≤ 14))) := by
  rfl

theorem filter_keep_of_all {l : List Char} (h : ∀ c ∈ l, keepChar c = true) :
    l.filter keepChar = l := List.filter_eq_self.mpr h

theorem mem_of_getLast?_eq {α : Type} {l : List α} {a : α} (h : l.getLast? = some a) :
    a ∈ l := by
  have h2 := List.dropLast_append_getLast? a (Option.mem_def.mpr h)
  rw [← h2]
  exact List.mem_append_right _ (List.mem_singleton_self a)

theorem formatChars_head (l : List Char) : (formatChars l).head? = some '+' := by
  unfold formatChars
  by_cases h : (l.filter keepChar).head? = some '+'
  · rw [if_pos h]; exact h
  · rw [if_neg h]; rfl

theorem formatChars_idem (l : List Char) : formatChars (formatChars l) = formatChars l := by
  have hmem : ∀ c ∈ l.filter keepChar, keepChar c = true :=
    fun c hc => (List.mem_filter.mp hc).2
  unfold formatChars
  by_cases h : (l.filter keepChar).head? = some '+'
  · rw [if_pos h, filter_keep_of_all hmem, if_pos h]
  · rw [if_neg h, List.filter_cons_of_pos (p := keepChar) (by decide),
        filter_keep_of_all hmem]
    simp

theorem format_phone_number_idem (s : String) :
    format_phone_number (format_phone_number s) = format_phone_number s :=
  congrArg String.mk (formatChars_idem s.data)

theorem chars_of_format_fixed {p : String} (h : format_phone_number p = p) :
    ∀ c ∈ p.data, keepChar c = true := by
  have hd : formatChars p.data = p.data := congrArg String.data h
  unfold formatChars at hd
  by_cases hc : (p.data.filter keepChar).head? = some '+'
  · rw [if_pos hc] at hd
    intro c hcm
    rw [← hd] at hcm
    exact (List.mem_filter.mp hcm).2
  · rw [if_neg hc] at hd
    intro c hcm
    rw [← hd] at hcm
    rcases List.mem_cons.mp hcm with h1 | h1
    · subst h1; decide
    · exact (List.mem_filter.mp h1).2

theorem isDigitChar_nat {c : Char} (h : isDigitChar c = true) :
    48 ≤ c.toNat ∧ c.toNat ≤ 57 := of_decide_eq_true h

theorem digit_not_lf {c : Char} (h : isDigitChar c = true) : c ≠ '\n' := by
  intro he
  subst he
  exact absurd h (by decide)

theorem keepChar_of_digit {c : Char} (h : isDigitChar c = true) : keepChar c = true := by
  unfold keepChar
  rw [h]
  rfl

/-- On an all-digit run the `e164Core` trimming is the identity. -/
theorem e164Core_of_digits {l : List Char} (h : l.all isDigitChar = true) :
    e164Core l = l := by
  unfold e164Core
  by_cases hl : l.getLast? = some '\n'
  · have hmem := mem_of_getLast?_eq hl
    have := List.all_eq_true.mp h _ hmem
    exact absurd this (by decide)
  · rw [if_neg hl]

/-- The formatter keeps exactly the validator's digit core from the tail of
an accepted string. -/
theorem filter_keep_tail {rest : List Char}
    (hall : (e164Core rest).all isDigitChar = true) :
    rest.filter keepChar = e164Core rest := by
  unfold e164Core at hall ⊢
  by_cases hl : rest.getLast? = some '\n'
  · rw [if_pos hl] at hall ⊢
    have hsplit := List.dropLast_append_getLast? '\n' (Option.mem_def.mpr hl)
    conv_lhs => rw [← hsplit]
    rw [List.filter_append]
    have h1 : rest.dropLast.filter keepChar = rest.dropLast :=
      filter_keep_of_all (fun c hc => keepChar_of_digit (List.all_eq_true.mp hall _ hc))
    rw [h1]
    simp [keepChar, isDigitChar]
  · rw [if_neg hl] at hall ⊢
    exact filter_keep_of_all (fun c hc => keepChar_of_digit (List.all_eq_true.mp hall _ hc))

/-- Formatting a validated string yields `'+'`, the lead digit, and the
digit core; it remains accepted by the validator. -/
theorem validateChars_format {l : List Char} (h : validateChars l = true) :
    validateChars (formatChars l) = true := by
  rcases l with _ | ⟨a, tl⟩
  · exact nomatch h
  · rcases tl with _ | ⟨d, rest⟩
    · exact nomatch h
    · rw [validateChars_cons] at h
      have hplus : a = '+' := of_decide_eq_true (by
        have := Bool.and_eq_true_iff.mp (Bool.and_eq_true_iff.mp h).1
        exact this.1)
      have hdig : decide (49 ≤ d.toNat ∧ d.toNat ≤ 57) = true :=
        (Bool.and_eq_true_iff.mp (Bool.and_eq_true_iff.mp h).1).2
      have hcore := (Bool.and_eq_true_iff.mp h).2
      have hall : (e164Core rest).all isDigitChar = true :=
        (Bool.and_eq_true_iff.mp hcore).1
      have hlen : decide (1 ≤ (e164Core rest).length ∧ (e164Core rest).length ≤ 14) = true :=
        (Bool.and_eq_true_iff.mp hcore).2
      subst hplus
      have hkeepd : keepChar d = true := by
        apply keepChar_of_digit
        have := of_decide_eq_true hdig
        unfold isDigitChar
        exact decide_eq_true (by omega)
      have hform : formatChars ('+' :: d :: rest) = '+' :: d :: e164Core rest := by
        unfold formatChars
        rw [List.filter_cons_of_pos (p := keepChar) (by decide),
            List.filter_cons_of_pos (p := keepChar) hkeepd, filter_keep_tail hall]
        simp
      rw [hform, validateChars_cons]
      rw [e164Core_of_digits hall]
      simp only [hdig, hall, hlen, Bool.and_true, Bool.true_and]
      rfl

theorem validate_format_of_validate {p : String}
    (h : validate_phone_number p = true) :
    validate_phone_number (format_phone_number p) = true :=
  validateChars_format h

theorem stripTrailingLf_data (s : String) : (stripTrailingLf s).data = e164Core s.data := by
  unfold stripTrailingLf e164Core
  by_cases h : s.data.getLast? = some '\n'
  · rw [if_pos h, if_pos h]
  · rw [if_neg h, if_neg h]

/-- The implemented validator agrees with the spec's E.164 shape after one
optional trailing newline is removed. -/
theorem validateChars_eq_spec (l : List Char) : validateChars l = isE164Chars (e164Core l) := by
  rcases l with _ | ⟨a, tl⟩
  · rfl
  · rcases tl with _ | ⟨d, rest⟩
    · unfold e164Core
      by_cases hcond : [a].getLast? = some '\n'
      · rw [if_pos hcond]
        rfl
      · rw [if_neg hcond]
        rfl
    · rcases rest with _ | ⟨r, rs⟩
      · unfold e164Core
        by_cases hcond : [a, d].getLast? = some '\n'
        · rw [if_pos hcond]
          show validateChars [a, d] = isE164Chars [a]
          simp [validateChars, isE164Chars, e164Core]
        · rw [if_neg hcond]
          show validateChars [a, d] = isE164Chars [a, d]
          simp [validateChars, isE164Chars, e164Core]
      · have hg : (a :: d :: r :: rs).getLast? = (r :: rs).getLast? := by
          rw [List.getLast?_cons_cons, List.getLast?_cons_cons]
        by_cases hlf : (r :: rs).getLast? = some '\n'
        · have e1 : e164Core (r :: rs) = (r :: rs).dropLast := by
            unfold e164Core
            rw [if_pos hlf]
          have e2 : e164Core (a :: d :: r :: rs) = a :: d :: (r :: rs).dropLast := by
            unfold e164Core
            rw [hg, if_pos hlf, List.dropLast_cons₂, List.dropLast_cons₂]
          rw [validateChars_cons, e1, e2]
          rfl
        · have e1 : e164Core (r :: rs) = r :: rs := by
            unfold e164Core
            rw [if_neg hlf]
          have e2 : e164Core (a :: d :: r :: rs) = a :: d :: r :: rs := by
            unfold e164Core
            rw [hg, if_neg hlf]
          rw [validateChars_cons, e1, e2]
          rfl

/-! ## Claims about the validator and formatter -/

/-- C4 (code bug witness): the formatter keeps every `'+'`, not only a
leading one — `format("1+2")` is `"+1+2"` and `format("+1-2+3")` is
`"+12+3"`, keeping a `'+'` after the sign, contrary to the claim and to the
code's own comment (`# Remove all non-digit characters except leading +`). -/
theorem claim_C4 :
    format_phone_number "1+2" = "+1+2" ∧ format_phone_number "+1-2+3" = "+12+3" := by
  exact ⟨by decide, by decide⟩

/-- C5: for all strings containing at least one digit (in fact for all
strings), applying the formatter twice gives the same result as applying
it once. -/
theorem claim_C5 (s : String) (_h : s.data.any isDigitChar = true) :
    format_phone_number (format_phone_number s) = format_phone_number s :=
  format_phone_number_idem s

/-- C5 witness at a concrete input containing a digit. -/
theorem claim_C5_witness :
    "415x".data.any isDigitChar = true ∧
    format_phone_number (format_phone_number "415x") = format_phone_number "415x" :=
  ⟨by decide, claim_C5 "415x" (by decide)⟩

/-- C2 (counterexample): the outbound-call and dispatch requesters format
before validating, so the "invalid" input `"12345"` becomes `"+12345"`,
passes validation, and the remote requests ARE issued. -/
theorem claim_C2_cex :
    create_outbound_call "12345" "room-1" "ST_1" none none
      = .ok ⟨some "ST_1", "+12345", "room-1", "caller-+12345", "+12345"⟩ ∧
    dispatch_outbound_call "12345" none none "0123456789abcdef0123456789abcdef"
        "telephony-agent" "AD_1"
      = .ok (⟨"telephony-agent", "outbound-call-01234567",
              "\x7b\"phone_number\": \"+12345\"\x7d"⟩,
             ⟨"AD_1", "outbound-call-01234567", "+12345", "telephony-agent"⟩) :=
  ⟨rfl, rfl⟩

/-- C2 (amended): a phone number that is invalid even after normalization
(e.g. `"0123"`) makes both requesters raise `ValueError` before any
create-SIP-participant or create-dispatch request exists. -/
theorem claim_C2 (p room trunk uuid agent rid : String) (pid pname : Option String)
    (h : validate_phone_number (format_phone_number p) = false) :
    create_outbound_call p room trunk pid pname
      = .error ("Invalid phone number format: " ++ format_phone_number p) ∧
    dispatch_outbound_call p none none uuid agent rid
      = .error ("Invalid phone number format: " ++ format_phone_number p) := by
  constructor
  · simp [create_outbound_call, h]
  · simp [dispatch_outbound_call, h]

/-- C2 witness at `"0123"`, which normalizes to the invalid `"+0123"`. -/
theorem claim_C2_witness :
    validate_phone_number (format_phone_number "0123") = false ∧
    create_outbound_call "0123" "room-1" "ST_1" none none
      = .error "Invalid phone number format: +0123" :=
  ⟨by decide, (claim_C2 "0123" "room-1" "ST_1" "u" "a" "d" none none (by decide)).1⟩

/-! ## Claims about dispatch, room names, and the test-call ordering -/

theorem stripLit_append (pre rest : List Char) : stripLit pre (pre ++ rest) = some rest := by
  induction pre with
  | nil => rfl
  | cons c cs ih => simp [stripLit, ih]

/-- C8: with no room name supplied and a valid phone number, the dispatcher
generates `outbound-call-` followed by the first 8 characters of
`uuid4().hex` (8 hexadecimal characters), and on success returns the
dispatch id, that room name, the normalized number, and the agent name. -/
theorem claim_C8 (p uuidHex defaultAgent rid : String)
    (hv : validate_phone_number p = true)
    (hlen : uuidHex.data.length = 32)
    (hhex : uuidHex.data.all (fun c => (hexVal c).isSome) = true) :
    ∃ req info,
      dispatch_outbound_call p none none uuidHex defaultAgent rid = .ok (req, info) ∧
      info.room_name = "outbound-call-" ++ String.mk (uuidHex.data.take 8) ∧
      isOutboundRoomName info.room_name = true ∧
      req.room = info.room_name ∧
      info.dispatch_id = rid ∧
      info.phone_number = format_phone_number p ∧
      info.agent_name = defaultAgent := by
  have hval : validate_phone_number (format_phone_number p) = true :=
    validate_format_of_validate hv
  have hvalne : ¬ validate_phone_number (format_phone_number p) = false := by
    rw [hval]; simp
  refine ⟨⟨defaultAgent, "outbound-call-" ++ String.mk (uuidHex.data.take 8),
           jsonDumpsPhone (format_phone_number p)⟩,
          ⟨rid, "outbound-call-" ++ String.mk (uuidHex.data.take 8),
           format_phone_number p, defaultAgent⟩, ?_, rfl, ?_, rfl, rfl, rfl, rfl⟩
  · unfold dispatch_outbound_call
    rw [if_neg hvalne]
  · unfold isOutboundRoomName
    have hdata : ("outbound-call-" ++ String.mk (uuidHex.data.take 8)).data
        = "outbound-call-".data ++ uuidHex.data.take 8 := by
      rw [String.data_append, string_mk_data]
    rw [hdata, stripLit_append]
    have h8 : (uuidHex.data.take 8).length = 8 := by
      rw [List.length_take, hlen]
      rfl
    have hhex8 : (uuidHex.data.take 8).all (fun c => (hexVal c).isSome) = true := by
      rw [List.all_eq_true] at hhex ⊢
      exact fun c hc => hhex c (List.take_subset 8 uuidHex.data hc)
    simp [h8, hhex8]

/-- C8 witness at a concrete valid number and a concrete 32-character
`uuid4().hex` value. -/
theorem claim_C8_witness :
    ∃ req info,
      dispatch_outbound_call "+14155551234" none none
          "0123456789abcdef0123456789abcdef" "telephony-agent" "AD_1" = .ok (req, info) ∧
      info.room_name = "outbound-call-"
          ++ String.mk ("0123456789abcdef0123456789abcdef".data.take 8) ∧
      isOutboundRoomName info.room_name = true ∧
      req.room = info.room_name ∧
      info.dispatch_id = "AD_1" ∧
      info.phone_number = format_phone_number "+14155551234" ∧
      info.agent_name = "telephony-agent" :=
  claim_C8 "+14155551234" "0123456789abcdef0123456789abcdef" "telephony-agent" "AD_1"
    (by decide) (by decide) (by decide)

/-- C9: in both test-call workflows the create-dispatch request comes
first, then the fixed five-second sleep (no readiness check exists in the
event vocabulary), then the create-SIP-participant request, whose room is
exactly the room the dispatch created. -/
theorem claim_C9 :
    (∀ (p : String) (targ tenv : Option String) (uuid agent rid : String),
        (make_test_call p targ tenv uuid agent rid).2 = .ok () →
        ∃ r1 r2, (make_test_call p targ tenv uuid agent rid).1
            = [.dispatchCreate r1, .sleepSeconds 5, .sipCreate r2] ∧
          r2.room_name = r1.room) ∧
    (∀ (p uuid : String) (tenv : Option String),
        ∃ r1 r2, (make_call p uuid tenv).1
            = [.dispatchCreate r1, .sleepSeconds 5, .sipCreate r2] ∧
          r2.room_name = r1.room) := by
  constructor
  · intro p targ tenv uuid agent rid hok
    by_cases hval : validate_phone_number (format_phone_number p) = false
    · exfalso
      rw [show make_test_call p targ tenv uuid agent rid
            = ([], .error ("Invalid phone number format: " ++ format_phone_number p))
          from by simp [make_test_call, dispatch_outbound_call, hval]] at hok
      exact nomatch hok
    · rcases htr : (truthyOpt targ).orElse (fun _ => truthyOpt tenv) with _ | t
      · exfalso
        rw [show make_test_call p targ tenv uuid agent rid
              = ([CallEvent.dispatchCreate ⟨(match (none : Option String) with
                    | some a => if a = "" then agent else a
                    | none => agent),
                   "outbound-call-" ++ String.mk (uuid.data.take 8),
                   jsonDumpsPhone (format_phone_number p)⟩,
                  CallEvent.sleepSeconds 5],
                 .error "No trunk_id provided and LIVEKIT_OUTBOUND_TRUNK_ID not set in .env")
            from by simp [make_test_call, dispatch_outbound_call, hval, htr]] at hok
        exact nomatch hok
      · refine ⟨⟨agent, "outbound-call-" ++ String.mk (uuid.data.take 8),
                 jsonDumpsPhone (format_phone_number p)⟩,
                ⟨some t, format_phone_number p,
                 "outbound-call-" ++ String.mk (uuid.data.take 8),
                 "caller-" ++ format_phone_number p, format_phone_number p⟩, ?_, rfl⟩
        simp [make_test_call, dispatch_outbound_call, create_outbound_call, hval, htr]
  · intro p uuid tenv
    exact ⟨⟨"telephony-agent", "outbound-call-" ++ String.mk (uuid.data.take 8),
            jsonDumpsPhone p⟩,
           ⟨tenv, p, "outbound-call-" ++ String.mk (uuid.data.take 8),
            "caller-" ++ p, p⟩, rfl, rfl⟩

/-- C9 witness: a concrete successful run of `make_test_call` and a
concrete run of `make_call`. -/
theorem claim_C9_witness :
    ((make_test_call "+14155551234" none (some "ST_1")
        "0123456789abcdef0123456789abcdef" "telephony-agent" "AD_1").2 = .ok () ∧
     ∃ r1 r2, (make_test_call "+14155551234" none (some "ST_1")
        "0123456789abcdef0123456789abcdef" "telephony-agent" "AD_1").1
          = [.dispatchCreate r1, .sleepSeconds 5, .sipCreate r2] ∧
        r2.room_name = r1.room) ∧
    (∃ r1 r2, (make_call "+14155551234" "0123456789abcdef0123456789abcdef" (some "ST_1")).1
          = [.dispatchCreate r1, .sleepSeconds 5, .sipCreate r2] ∧
        r2.room_name = r1.room) :=
  ⟨⟨rfl, claim_C9.1 "+14155551234" none (some "ST_1")
      "0123456789abcdef0123456789abcdef" "telephony-agent" "AD_1" rfl⟩,
   claim_C9.2 "+14155551234" "0123456789abcdef0123456789abcdef" (some "ST_1")⟩

/-! ## Claims about the metadata channel and the worker entrypoint -/

/-- Characters needing no treatment by the JSON string scanner. -/
def scanInert (c : Char) : Prop := c ≠ quoteChar ∧ c ≠ backslashChar ∧ ¬ c.toNat < 32

instance scanInertDecidable (c : Char) : Decidable (scanInert c) := by
  unfold scanInert
  infer_instance

theorem scanStr_plain {cs : List Char} (h : ∀ c ∈ cs, scanInert c) (rest : List Char) :
    scanStr (cs ++ quoteChar :: rest) = some (cs, rest) := by
  induction cs with
  | nil =>
    rw [List.nil_append]
    unfold scanStr
    rw [if_pos rfl]
  | cons c cs ih =>
    have hc := h c (List.mem_cons_self c cs)
    have hrest : ∀ x ∈ cs, scanInert x := fun x hx => h x (List.mem_cons_of_mem c hx)
    rw [List.cons_append]
    show scanStr (c :: (cs ++ quoteChar :: rest)) = some (c :: cs, rest)
    unfold scanStr
    rw [if_neg hc.1, if_neg hc.2.1, if_neg hc.2.2, ih hrest]
    rfl

theorem string_eta (s : String) : String.mk s.data = s := rfl

/-- Parsing the dispatcher's serialized metadata recovers the one-key
dictionary with the exact phone string, for any value whose characters are
inert for the string scanner. -/
theorem parseVal_dumpsPhone (f : Nat) (p : String)
    (hp : ∀ c ∈ p.data, scanInert c) :
    parseVal (f + 3) (jsonDumpsPhone p).data
      = some (.obj [("phone_number", .str p)], []) := by
  have hdata : (jsonDumpsPhone p).data
      = lbraceChar :: quoteChar ::
        ("phone_number".data ++
          quoteChar :: ':' :: ' ' :: quoteChar :: (p.data ++ quoteChar :: [rbraceChar])) := by
    show (("\x7b\"phone_number\": \"" ++ p ++ "\"\x7d")).data = _
    rw [String.data_append, String.data_append]
    rw [show ("\x7b\"phone_number\": \"").data
          = lbraceChar :: quoteChar ::
            ("phone_number".data ++ [quoteChar, ':', ' ', quoteChar]) from by decide]
    rw [show ("\"\x7d").data = [quoteChar, rbraceChar] from by decide]
    simp
  have hkey : scanStr ("phone_number".data ++
        quoteChar :: ':' :: ' ' :: quoteChar :: (p.data ++ quoteChar :: [rbraceChar]))
      = some ("phone_number".data,
          ':' :: ' ' :: quoteChar :: (p.data ++ quoteChar :: [rbraceChar])) :=
    scanStr_plain (by decide) _
  have hval2 : scanStr (p.data ++ [quoteChar, rbraceChar]) = some (p.data, [rbraceChar]) :=
    scanStr_plain hp _
  rw [show ("phone_number".data : List Char)
        = ['p', 'h', 'o', 'n', 'e', '_', 'n', 'u', 'm', 'b', 'e', 'r'] from rfl] at hkey
  rw [hdata]
  show parseVal ((f + 2) + 1) _ = _
  simp +decide only [parseVal, parseObjBody, skipWs, isJsonWs, if_true, if_false]
  rw [hkey]
  simp +decide [skipWs, isJsonWs, hval2, string_eta,
    show (String.mk ['p', 'h', 'o', 'n', 'e', '_', 'n', 'u', 'm', 'b', 'e', 'r'] : String)
        = "phone_number" from rfl]

theorem jsonDumpsPhone_data_length (p : String) :
    (jsonDumpsPhone p).data.length = p.data.length + 20 := by
  show (("\x7b\"phone_number\": \"" ++ p ++ "\"\x7d")).data.length = _
  rw [String.data_append, String.data_append, List.length_append, List.length_append]
  rw [show ("\x7b\"phone_number\": \"").data.length = 18 from rfl,
      show ("\"\x7d").data.length = 2 from rfl]
  omega

theorem jsonDumpsPhone_ne_empty (p : String) : jsonDumpsPhone p ≠ "" := by
  intro h
  have h2 := congrArg String.data h
  have h3 := congrArg List.length h2
  rw [jsonDumpsPhone_data_length] at h3
  rw [show ("" : String).data.length = 0 from rfl] at h3
  omega

/-- `json.loads` inverts the dispatcher's `json.dumps` on any phone string
whose characters are inert for the string scanner. -/
theorem jsonParse_dumpsPhone (p : String) (hp : ∀ c ∈ p.data, scanInert c) :
    jsonParse (jsonDumpsPhone p) = some (.obj [("phone_number", .str p)]) := by
  unfold jsonParse
  have hlen : (jsonDumpsPhone p).data.length + 1 = (p.data.length + 18) + 3 := by
    rw [jsonDumpsPhone_data_length]
  rw [hlen, parseVal_dumpsPhone (p.data.length + 18) p hp]
  simp [skipWs]

theorem keep_char_facts {c : Char} (h : keepChar c = true) : scanInert c := by
  have h2 : isDigitChar c = true ∨ c = '+' := by
    simpa [keepChar] using h
  rcases h2 with h1 | h1
  · have hn := isDigitChar_nat h1
    refine ⟨?_, ?_, ?_⟩
    · intro he
      subst he
      exact absurd h1 (by decide)
    · intro he
      subst he
      exact absurd h1 (by decide)
    · omega
  · subst h1
    exact ⟨by decide, by decide, by decide⟩

theorem validate_ne_empty {p : String} (h : validate_phone_number p = true) : p ≠ "" := by
  intro he
  subst he
  exact nomatch h

/-- C1: dispatching a valid normalized phone number `p` serializes the
metadata, the worker's parse recovers exactly `p` and selects outbound
behaviour (no greeting is generated); with missing metadata the worker
selects inbound behaviour (a greeting is generated). -/
theorem claim_C1 (p uuidHex defaultAgent rid : String)
    (hv : validate_phone_number p = true)
    (hn : format_phone_number p = p) :
    ∃ req info,
      dispatch_outbound_call p none none uuidHex defaultAgent rid = .ok (req, info) ∧
      req.metadata = jsonDumpsPhone p ∧
      entrypointMode (some req.metadata) = .ok (.outbound (.str p)) ∧
      greetingOf (.outbound (.str p)) = none ∧
      entrypointMode none = .ok .inbound ∧
      greetingOf .inbound ≠ none := by
  have hval : validate_phone_number (format_phone_number p) = true := by
    rw [hn]; exact hv
  have hvalne : ¬ validate_phone_number (format_phone_number p) = false := by
    rw [hval]; simp
  have hinert : ∀ c ∈ p.data, scanInert c := fun c hc =>
    keep_char_facts (chars_of_format_fixed hn c hc)
  have hparse := jsonParse_dumpsPhone p hinert
  have hne := jsonDumpsPhone_ne_empty p
  have hpne : p ≠ "" := validate_ne_empty hv
  refine ⟨⟨defaultAgent, "outbound-call-" ++ String.mk (uuidHex.data.take 8),
           jsonDumpsPhone (format_phone_number p)⟩,
          ⟨rid, "outbound-call-" ++ String.mk (uuidHex.data.take 8),
           format_phone_number p, defaultAgent⟩, ?_, ?_, ?_, rfl, rfl, ?_⟩
  · unfold dispatch_outbound_call
    rw [if_neg hvalne]
  · rw [hn]
  · show entrypointMode (some (jsonDumpsPhone (format_phone_number p))) = _
    rw [hn]
    simp [entrypointMode, hne, hparse, dictGet, jsonTruthy, hpne]
  · simp [greetingOf]

/-- C1 witness at a concrete valid, normalized number. -/
theorem claim_C1_witness :
    ∃ req info,
      dispatch_outbound_call "+14155551234" none none
          "0123456789abcdef0123456789abcdef" "telephony-agent" "AD_1" = .ok (req, info) ∧
      req.metadata = jsonDumpsPhone "+14155551234" ∧
      entrypointMode (some req.metadata) = .ok (.outbound (.str "+14155551234")) ∧
      greetingOf (.outbound (.str "+14155551234")) = none ∧
      entrypointMode none = .ok .inbound ∧
      greetingOf .inbound ≠ none :=
  claim_C1 "+14155551234" "0123456789abcdef0123456789abcdef" "telephony-agent" "AD_1"
    (by decide) (by decide)

/-! ## Claim C7: idempotence of the trunk-provisioning workflows -/

/-- Credentials visible through the sid lookup the script performs. -/
def credsOfSid (s : TwilioState) (sid : String) : List SipCredential :=
  ((findCredListBySid s sid).map (fun cl => cl.credentials)).getD []

/-- All the postconditions the auto-update script establishes, phrased
through the very lookups the script performs on its next run. -/
def autoDone (cfg : AutoUpdateCfg) (s : TwilioState) : Prop :=
  ∃ cl, findCredListByName s = some cl ∧
    (credsOfSid s cl.sid).any (fun c => c.username == cfg.sipUsername) = true ∧
    ∃ tr, findTrunk s cfg.trunkSid = some tr ∧
      tr.credListSids.any (fun x => x == cl.sid) = true ∧
      tr.originationUrls.any (fun u => strContainsSub u.sip_url livekitSipUri) = true ∧
      (∀ ph, truthyOpt cfg.phoneNumber = some ph →
        tr.phoneNumbers.any (fun tn => tn.phone_number == ph) = true ∨
        s.incomingPhones.filter (fun ip => ip.phone_number == ph) = [])

theorem find?_append_of_none {α : Type} {p : α → Bool} {l : List α}
    (h : ∀ x ∈ l, ¬ p x = true) {a : α} (ha : p a = true) :
    (l ++ [a]).find? p = some a := by
  induction l with
  | nil => simp [List.find?_cons, ha]
  | cons x xs ih =>
    have hx : p x = false := by
      simpa using h x (List.mem_cons_self x xs)
    rw [List.cons_append, List.find?_cons, hx]
    exact ih (fun y hy => h y (List.mem_cons_of_mem x hy))

theorem find?_updateFirst_self {α : Type} {p : α → Bool} {f : α → α}
    (hf : ∀ x, p (f x) = p x) (l : List α) :
    (updateFirst p f l).find? p = (l.find? p).map f := by
  induction l with
  | nil => rfl
  | cons x xs ih =>
    by_cases hp : p x = true
    · rw [show updateFirst p f (x :: xs) = f x :: xs from by simp only [updateFirst]; rw [if_pos hp]]
      rw [List.find?_cons, List.find?_cons, hp, hf x, hp]
      rfl
    · have hp' : p x = false := by simpa using hp
      rw [show updateFirst p f (x :: xs) = x :: updateFirst p f xs from by
            simp only [updateFirst]; rw [if_neg hp]]
      rw [List.find?_cons, List.find?_cons, hp']
      exact ih

theorem find?_updateFirst_exists {α : Type} {p q : α → Bool} {f : α → α}
    (hq : ∀ x, q (f x) = q x) {l : List α} {x : α} (h : l.find? q = some x) :
    ∃ y, (updateFirst p f l).find? q = some y ∧ (y = x ∨ y = f x) := by
  induction l with
  | nil => exact nomatch h
  | cons a as ih =>
    by_cases hqa : q a = true
    · rw [List.find?_cons, hqa] at h
      injection h with h
      subst h
      by_cases hpa : p a = true
      · refine ⟨f a, ?_, Or.inr rfl⟩
        rw [show updateFirst p f (a :: as) = f a :: as from by
              simp only [updateFirst]; rw [if_pos hpa]]
        rw [List.find?_cons, hq a, hqa]
      · refine ⟨a, ?_, Or.inl rfl⟩
        rw [show updateFirst p f (a :: as) = a :: updateFirst p f as from by
              simp only [updateFirst]; rw [if_neg hpa]]
        rw [List.find?_cons, hqa]
    · have hqa' : q a = false := by simpa using hqa
      rw [List.find?_cons, hqa'] at h
      by_cases hpa : p a = true
      · refine ⟨x, ?_, Or.inl rfl⟩
        rw [show updateFirst p f (a :: as) = f a :: as from by
              simp only [updateFirst]; rw [if_pos hpa]]
        rw [List.find?_cons, hq a, hqa']
        exact h
      · obtain ⟨y, hy, hor⟩ := ih h
        refine ⟨y, ?_, hor⟩
        rw [show updateFirst p f (a :: as) = a :: updateFirst p f as from by
              simp only [updateFirst]; rw [if_neg hpa]]
        rw [List.find?_cons, hqa']
        exact hy

theorem findTrunk_congr {s s' : TwilioState} (h : s.trunks = s'.trunks) (sid : String) :
    findTrunk s sid = findTrunk s' sid := by
  unfold findTrunk
  rw [h]

theorem findCredListByName_congr {s s' : TwilioState}
    (h : s.credentialLists = s'.credentialLists) :
    findCredListByName s = findCredListByName s' := by
  unfold findCredListByName
  rw [h]

theorem credsOfSid_congr {s s' : TwilioState}
    (h : s.credentialLists = s'.credentialLists) (sid : String) :
    credsOfSid s sid = credsOfSid s' sid := by
  unfold credsOfSid findCredListBySid
  rw [h]

/-- When every postcondition already holds, the auto-update script finds
each resource and issues no creation request, leaving the state unchanged. -/
theorem runAutoUpdate_skip {cfg : AutoUpdateCfg} {s : TwilioState} (h : autoDone cfg s) :
    runAutoUpdate cfg s = some (s, []) := by
  obtain ⟨cl, hfind, hcred, tr, htr, hassoc, hurl, hphone⟩ := h
  have hcred' := hcred
  unfold credsOfSid at hcred'
  have h1 : autoStepCredList s = (s, [], cl.sid) := by
    unfold autoStepCredList
    rw [hfind]
  have h2 : autoStepCredential cfg.sipUsername cfg.sipPassword cl.sid s = (s, []) := by
    simp [autoStepCredential, hcred']
  have h3 : autoStepAssoc cfg.trunkSid cl.sid s = (s, []) := by
    simp [autoStepAssoc, htr, hassoc]
  have h4 : autoStepOrigUrl cfg.trunkSid s = some (s, []) := by
    simp [autoStepOrigUrl, htr, hurl]
  have h5 : autoStepPhone cfg.trunkSid cfg.phoneNumber s = some (s, []) := by
    unfold autoStepPhone
    rcases hph : truthyOpt cfg.phoneNumber with _ | ph
    · rfl
    · rcases hphone ph hph with hyes | hno
      · simp [htr, hyes]
      · by_cases hany : tr.phoneNumbers.any (fun tn => tn.phone_number == ph) = true
        · simp [htr, hany]
        · simp [htr, hany, hno]
  simp [runAutoUpdate, h1, h2, h3, h4, h5]

/-- Step 1 establishes: a `livekit` credential list is findable by name,
its sid is findable by sid, and trunks/incoming numbers are untouched. -/
theorem autoStepCredList_post (s : TwilioState) :
    (∃ cl, findCredListByName (autoStepCredList s).1 = some cl
        ∧ cl.sid = (autoStepCredList s).2.2) ∧
    (findCredListBySid (autoStepCredList s).1 (autoStepCredList s).2.2).isSome = true ∧
    (autoStepCredList s).1.trunks = s.trunks ∧
    (autoStepCredList s).1.incomingPhones = s.incomingPhones := by
  unfold autoStepCredList
  rcases hfind : findCredListByName s with _ | cl
  · have hnone : ∀ x ∈ s.credentialLists,
        ¬ strContainsSub (strToLower x.friendly_name) "livekit" = true :=
      List.find?_eq_none.mp hfind
    have hnew : strContainsSub (strToLower "LiveKit SIP Credentials") "livekit" = true := by
      decide
    refine ⟨⟨⟨freshSid s.nextSid, "LiveKit SIP Credentials", []⟩, ?_, rfl⟩, ?_, rfl, rfl⟩
    · exact find?_append_of_none hnone hnew
    · apply List.find?_isSome.mpr
      refine ⟨⟨freshSid s.nextSid, "LiveKit SIP Credentials", []⟩,
              List.mem_append_right _ (List.mem_singleton_self _), ?_⟩
      exact beq_self_eq_true _
  · refine ⟨⟨cl, hfind, rfl⟩, ?_, rfl, rfl⟩
    apply List.find?_isSome.mpr
    exact ⟨cl, List.mem_of_find?_eq_some hfind, beq_self_eq_true _⟩

/-- Step 2 establishes: the configured username is present in the list the
sid lookup returns; trunks and incoming numbers are untouched. -/
theorem autoStepCredential_post (u pw clSid : String) (s : TwilioState)
    (hsid : (findCredListBySid s clSid).isSome = true) :
    (credsOfSid (autoStepCredential u pw clSid s).1 clSid).any
        (fun c => c.username == u) = true ∧
    (autoStepCredential u pw clSid s).1.trunks = s.trunks ∧
    (autoStepCredential u pw clSid s).1.incomingPhones = s.incomingPhones := by
  have hunfold : autoStepCredential u pw clSid s =
      (if (credsOfSid s clSid).any (fun c => c.username == u) then (s, [])
       else
        (⟨s.trunks,
          updateFirst (fun cl => cl.sid == clSid)
            (fun cl => ⟨cl.sid, cl.friendly_name, cl.credentials ++ [⟨u, pw⟩]⟩)
            s.credentialLists,
          s.incomingPhones, s.nextSid⟩,
         [.createCredential clSid u pw])) := rfl
  rw [hunfold]
  by_cases hany : (credsOfSid s clSid).any (fun c => c.username == u) = true
  · rw [if_pos hany]
    exact ⟨hany, rfl, rfl⟩
  · rw [if_neg hany]
    refine ⟨?_, rfl, rfl⟩
    obtain ⟨cl0, hcl0⟩ := Option.isSome_iff_exists.mp hsid
    show ((((updateFirst (fun cl => cl.sid == clSid)
        (fun cl => ⟨cl.sid, cl.friendly_name, cl.credentials ++ [⟨u, pw⟩]⟩)
        s.credentialLists).find? (fun cl => cl.sid == clSid)).map
          (fun cl => cl.credentials)).getD []).any (fun c => c.username == u) = true
    rw [find?_updateFirst_self (p := fun cl => cl.sid == clSid)
          (f := fun cl => ({ sid := cl.sid, friendly_name := cl.friendly_name,
                             credentials := cl.credentials ++ [⟨u, pw⟩] } : CredentialList))
          (fun x => rfl) s.credentialLists]
    have hcl0' : s.credentialLists.find? (fun cl => cl.sid == clSid) = some cl0 := hcl0
    rw [hcl0']
    simp

/-- Step 2 only appends credentials, so the name search still finds a list
with the same sid. -/
theorem autoStepCredential_pres_name (u pw clSid : String) (s : TwilioState)
    {cl : CredentialList} (h : findCredListByName s = some cl) :
    ∃ cl2, findCredListByName (autoStepCredential u pw clSid s).1 = some cl2
        ∧ cl2.sid = cl.sid := by
  have hunfold : autoStepCredential u pw clSid s =
      (if (credsOfSid s clSid).any (fun c => c.username == u) then (s, [])
       else
        (⟨s.trunks,
          updateFirst (fun cl => cl.sid == clSid)
            (fun cl => ⟨cl.sid, cl.friendly_name, cl.credentials ++ [⟨u, pw⟩]⟩)
            s.credentialLists,
          s.incomingPhones, s.nextSid⟩,
         [.createCredential clSid u pw])) := rfl
  rw [hunfold]
  by_cases hany : (credsOfSid s clSid).any (fun c => c.username == u) = true
  · rw [if_pos hany]
    exact ⟨cl, h, rfl⟩
  · rw [if_neg hany]
    have h' : s.credentialLists.find?
        (fun x => strContainsSub (strToLower x.friendly_name) "livekit") = some cl := h
    obtain ⟨y, hy, hor⟩ := find?_updateFirst_exists
      (p := fun x => x.sid == clSid)
      (f := fun x => ({ sid := x.sid, friendly_name := x.friendly_name,
                        credentials := x.credentials ++ [⟨u, pw⟩] } : CredentialList))
      (q := fun x => strContainsSub (strToLower x.friendly_name) "livekit")
      (fun x => rfl) h'
    refine ⟨y, hy, ?_⟩
    rcases hor with h1 | h1
    · rw [h1]
    · rw [h1]

/-- Step 3 establishes: the credential list is associated with the trunk;
credential lists and incoming numbers are untouched. -/
theorem autoStepAssoc_post (tSid clSid : String) (s : TwilioState)
    {tr : SipTrunk} (htr : findTrunk s tSid = some tr) :
    ∃ tr2, findTrunk (autoStepAssoc tSid clSid s).1 tSid = some tr2 ∧
      tr2.credListSids.any (fun x => x == clSid) = true ∧
      (autoStepAssoc tSid clSid s).1.credentialLists = s.credentialLists ∧
      (autoStepAssoc tSid clSid s).1.incomingPhones = s.incomingPhones := by
  unfold autoStepAssoc
  simp only [htr]
  by_cases hass : tr.credListSids.any (fun x => x == clSid) = true
  · rw [if_pos hass]
    exact ⟨tr, htr, hass, rfl, rfl⟩
  · rw [if_neg hass]
    refine ⟨⟨tr.sid, tr.friendly_name, tr.domain_name, tr.credListSids ++ [clSid],
             tr.originationUrls, tr.phoneNumbers⟩, ?_, ?_, rfl, rfl⟩
    · show (updateFirst (fun t => t.sid == tSid) _ s.trunks).find? (fun t => t.sid == tSid) = _
      rw [find?_updateFirst_self (p := fun t => t.sid == tSid)
            (f := fun t => ({ sid := t.sid, friendly_name := t.friendly_name,
                              domain_name := t.domain_name,
                              credListSids := t.credListSids ++ [clSid],
                              originationUrls := t.originationUrls,
                              phoneNumbers := t.phoneNumbers } : SipTrunk))
            (fun x => rfl) s.trunks]
      have htr' : s.trunks.find? (fun t => t.sid == tSid) = some tr := htr
      rw [htr']
      rfl
    · simp

/-- Step 4 establishes: the trunk carries an origination URL containing the
LiveKit URI; it preserves the trunk's association list and phone numbers,
and the state's credential lists and incoming numbers. -/
theorem autoStepOrigUrl_post (tSid : String) (s : TwilioState)
    {tr : SipTrunk} (htr : findTrunk s tSid = some tr) :
    ∃ s4 r4 tr2, autoStepOrigUrl tSid s = some (s4, r4) ∧
      findTrunk s4 tSid = some tr2 ∧
      tr2.originationUrls.any (fun u => strContainsSub u.sip_url livekitSipUri) = true ∧
      tr2.credListSids = tr.credListSids ∧
      tr2.phoneNumbers = tr.phoneNumbers ∧
      s4.credentialLists = s.credentialLists ∧
      s4.incomingPhones = s.incomingPhones := by
  unfold autoStepOrigUrl
  simp only [htr]
  by_cases hurl : tr.originationUrls.any (fun u => strContainsSub u.sip_url livekitSipUri) = true
  · rw [if_pos hurl]
    exact ⟨s, [], tr, rfl, htr, hurl, rfl, rfl, rfl, rfl⟩
  · rw [if_neg hurl]
    refine ⟨_, _, ⟨tr.sid, tr.friendly_name, tr.domain_name, tr.credListSids,
             tr.originationUrls ++ [⟨"LiveKit SIP URI", livekitSipUri, 1, 1, true⟩],
             tr.phoneNumbers⟩, rfl, ?_, ?_, rfl, rfl, rfl, rfl⟩
    · show (updateFirst (fun t => t.sid == tSid) _ s.trunks).find? (fun t => t.sid == tSid) = _
      rw [find?_updateFirst_self (p := fun t => t.sid == tSid)
            (f := fun t => ({ sid := t.sid, friendly_name := t.friendly_name,
                              domain_name := t.domain_name,
                              credListSids := t.credListSids,
                              originationUrls := t.originationUrls
                                ++ [⟨"LiveKit SIP URI", livekitSipUri, 1, 1, true⟩],
                              phoneNumbers := t.phoneNumbers } : SipTrunk))
            (fun x => rfl) s.trunks]
      have htr' : s.trunks.find? (fun t => t.sid == tSid) = some tr := htr
      rw [htr']
      rfl
    · have : strContainsSub livekitSipUri livekitSipUri = true := by decide
      simp [this]

/-- Step 5 establishes the phone postcondition and preserves everything
else. -/
theorem autoStepPhone_post (tSid : String) (phone : Option String) (s : TwilioState)
    {tr : SipTrunk} (htr : findTrunk s tSid = some tr) :
    ∃ s5 r5 tr2, autoStepPhone tSid phone s = some (s5, r5) ∧
      findTrunk s5 tSid = some tr2 ∧
      tr2.credListSids = tr.credListSids ∧
      tr2.originationUrls = tr.originationUrls ∧
      s5.credentialLists = s.credentialLists ∧
      s5.incomingPhones = s.incomingPhones ∧
      (∀ ph, truthyOpt phone = some ph →
        tr2.phoneNumbers.any (fun tn => tn.phone_number == ph) = true ∨
        s5.incomingPhones.filter (fun ip => ip.phone_number == ph) = []) := by
  unfold autoStepPhone
  rcases hph : truthyOpt phone with _ | ph
  · refine ⟨s, [], tr, rfl, htr, rfl, rfl, rfl, rfl, ?_⟩
    intro ph' hph'
    exact nomatch hph'
  · simp only [htr]
    by_cases hany : tr.phoneNumbers.any (fun tn => tn.phone_number == ph) = true
    · rw [if_pos hany]
      refine ⟨s, [], tr, rfl, htr, rfl, rfl, rfl, rfl, ?_⟩
      intro ph' hph'
      injection hph' with hph'
      subst hph'
      exact Or.inl hany
    · rw [if_neg hany]
      rcases hhead : (s.incomingPhones.filter (fun ip => ip.phone_number == ph)).head?
          with _ | ip
      · simp only [hhead]
        refine ⟨s, [], tr, rfl, htr, rfl, rfl, rfl, rfl, ?_⟩
        intro ph' hph'
        injection hph' with hph'
        subst hph'
        exact Or.inr (List.head?_eq_none_iff.mp hhead)
      · simp only [hhead]
        refine ⟨_, _, ⟨tr.sid, tr.friendly_name, tr.domain_name, tr.credListSids,
                 tr.originationUrls,
                 tr.phoneNumbers ++ [⟨ip.phone_number, ip.sid⟩]⟩, rfl, ?_, rfl, rfl,
                 rfl, rfl, ?_⟩
        · show (updateFirst (fun t => t.sid == tSid) _ s.trunks).find?
              (fun t => t.sid == tSid) = _
          rw [find?_updateFirst_self (p := fun t => t.sid == tSid)
                (f := fun t => ({ sid := t.sid, friendly_name := t.friendly_name,
                                  domain_name := t.domain_name,
                                  credListSids := t.credListSids,
                                  originationUrls := t.originationUrls,
                                  phoneNumbers := t.phoneNumbers
                                    ++ [⟨ip.phone_number, ip.sid⟩] } : SipTrunk))
                (fun x => rfl) s.trunks]
          have htr' : s.trunks.find? (fun t => t.sid == tSid) = some tr := htr
          rw [htr']
          rfl
        · intro ph' hph'
          injection hph' with hph'
          subst hph'
          have hipmem : ip ∈ s.incomingPhones.filter (fun x => x.phone_number == ph) :=
            List.mem_of_mem_head? (by rw [hhead]; exact rfl)
          have hip : (ip.phone_number == ph) = true := (List.mem_filter.mp hipmem).2
          have hip' : ip.phone_number = ph := by simpa using hip
          apply Or.inl
          simp [hip']

/-- A completed run of the auto-update script leaves the provider in a
state where every lookup of the next run succeeds. -/
theorem runAutoUpdate_establishes {cfg : AutoUpdateCfg} {s0 s1 : TwilioState}
    {r1 : List TwilioReq}
    (htr0 : (findTrunk s0 cfg.trunkSid).isSome = true)
    (h : runAutoUpdate cfg s0 = some (s1, r1)) :
    autoDone cfg s1 := by
  obtain ⟨⟨cl1, hname1, heq1⟩, hsome1, htrkA, hincA⟩ := autoStepCredList_post s0
  rcases e1 : autoStepCredList s0 with ⟨sA, rA, clSid⟩
  simp only [e1] at hname1 heq1 hsome1 htrkA hincA
  have p2 := autoStepCredential_post cfg.sipUsername cfg.sipPassword clSid sA hsome1
  have p2n := autoStepCredential_pres_name cfg.sipUsername cfg.sipPassword clSid sA hname1
  rcases e2 : autoStepCredential cfg.sipUsername cfg.sipPassword clSid sA with ⟨sB, rB⟩
  simp only [e2] at p2 p2n
  obtain ⟨hcredB, htrkB, hincB⟩ := p2
  obtain ⟨cl2, hname2, heq2⟩ := p2n
  have htrB : (findTrunk sB cfg.trunkSid).isSome = true := by
    rw [findTrunk_congr (htrkB.trans htrkA) cfg.trunkSid]
    exact htr0
  obtain ⟨trB, htrBeq⟩ := Option.isSome_iff_exists.mp htrB
  have p3 := autoStepAssoc_post cfg.trunkSid clSid sB htrBeq
  rcases e3 : autoStepAssoc cfg.trunkSid clSid sB with ⟨sC, rC⟩
  simp only [e3] at p3
  obtain ⟨trC, hfindC, hassC, hclC, hincC⟩ := p3
  obtain ⟨s4, r4, trD, he4, hfindD, hurlD, hcredsidD, hphonesD, hclD, hincD⟩ :=
    autoStepOrigUrl_post cfg.trunkSid sC hfindC
  obtain ⟨s5, r5, trE, he5, hfindE, hcredsidE, hurlE, hclE, hincE, hphE⟩ :=
    autoStepPhone_post cfg.trunkSid cfg.phoneNumber s4 hfindD
  have h' : runAutoUpdate cfg s0 = some (s5, rA ++ rB ++ rC ++ r4 ++ r5) := by
    unfold runAutoUpdate
    simp only [e1, e2, e3, he4, he5]
  rw [h'] at h
  injection h with h
  have hs : s5 = s1 := congrArg Prod.fst h
  subst hs
  have hcl51 : s5.credentialLists = sB.credentialLists := hclE.trans (hclD.trans hclC)
  refine ⟨cl2, ?_, ?_, trE, hfindE, ?_, ?_, ?_⟩
  · rw [findCredListByName_congr hcl51]
    exact hname2
  · rw [credsOfSid_congr hcl51, heq2, heq1]
    exact hcredB
  · rw [hcredsidE, hcredsidD, heq2, heq1]
    exact hassC
  · rw [hurlE]
    exact hurlD
  · exact hphE

/-- C7 (amended): re-running the automated trunk-update workflow
(`update_twilio_trunk_auto.py`) on the state any complete run left behind
finds every resource by lookup, issues no creation request, and leaves the
state unchanged.  (The one-shot setup script `setup_twilio_trunk.py`
performs no lookups and is not idempotent; see the counterexample.) -/
theorem claim_C7 (cfg : AutoUpdateCfg) (s0 s1 : TwilioState) (r1 : List TwilioReq)
    (htr : (findTrunk s0 cfg.trunkSid).isSome = true)
    (h : runAutoUpdate cfg s0 = some (s1, r1)) :
    runAutoUpdate cfg s1 = some (s1, []) :=
  runAutoUpdate_skip (runAutoUpdate_establishes htr h)

/-- C7 witness: a concrete run from a state holding only the configured
trunk, followed by the idempotent second run. -/
theorem claim_C7_witness :
    ∃ s1 r1,
      runAutoUpdate ⟨"TK1", "u1", "p1", some "+15550001111"⟩
          ⟨[⟨"TK1", "trunk", "d.pstn.twilio.com", [], [], []⟩], [],
           [⟨"PN1", "+15550001111"⟩], 0⟩ = some (s1, r1) ∧
      runAutoUpdate ⟨"TK1", "u1", "p1", some "+15550001111"⟩ s1 = some (s1, []) := by
  rcases heq : runAutoUpdate ⟨"TK1", "u1", "p1", some "+15550001111"⟩
      ⟨[⟨"TK1", "trunk", "d.pstn.twilio.com", [], [], []⟩], [],
       [⟨"PN1", "+15550001111"⟩], 0⟩ with _ | ⟨s1, r1⟩
  · exact absurd heq (by decide)
  · exact ⟨s1, r1, rfl,
      claim_C7 ⟨"TK1", "u1", "p1", some "+15550001111"⟩ _ s1 r1 (by decide) heq⟩

/-- First run of the one-shot setup script from an empty account. -/
def cexRun1 : TwilioState × List TwilioReq :=
  create_twilio_trunk "mytrunk" "mytrunk.pstn.twilio.com" "sip:sip.livekit.cloud"
    "u1" "p1" (some "+15550001111") ⟨[], [], [⟨"PN1", "+15550001111"⟩], 0⟩

/-- Second, identical run of the one-shot setup script. -/
def cexRun2 : TwilioState × List TwilioReq :=
  create_twilio_trunk "mytrunk" "mytrunk.pstn.twilio.com" "sip:sip.livekit.cloud"
    "u1" "p1" (some "+15550001111") cexRun1.1

/-- C7 (counterexample): the setup workflow `setup_twilio_trunk.py` looks
nothing up before creating; its second run re-issues the
create-credential-list request although a list of that name already
exists, leaving two identically named credential lists. -/
theorem claim_C7_cex :
    cexRun1.1.credentialLists.any
        (fun cl => cl.friendly_name == "mytrunk-credentials") = true ∧
    cexRun2.2.contains (.createCredentialList "mytrunk-credentials") = true ∧
    (cexRun2.1.credentialLists.filter
        (fun cl => cl.friendly_name == "mytrunk-credentials")).length = 2 := by
  exact ⟨by decide, by decide, by decide⟩

/-! ## Full model of Python's str-pattern digit class

Python's `\d` (without `re.ASCII`) matches every character of Unicode
category Nd.  `ndRanges` is the Nd code-point table of Unicode 14.0.0,
the tables of the CPython 3.11 this repository runs under; `isPyDigit` is
the resulting full model of `\d`, and the `...U` definitions below are the
translations of `validate_phone_number` / `format_phone_number` under it.
The earlier ASCII-restricted definitions remain exact on ASCII inputs
(`isPyDigit_ascii`, `validateCharsU_eq_ascii`). -/

def ndRanges : List (Nat × Nat) :=
  [(48, 57), (1632, 1641), (1776, 1785), (1984, 1993),
   (2406, 2415), (2534, 2543), (2662, 2671), (2790, 2799),
   (2918, 2927), (3046, 3055), (3174, 3183), (3302, 3311),
   (3430, 3439), (3558, 3567), (3664, 3673), (3792, 3801),
   (3872, 3881), (4160, 4169), (4240, 4249), (6112, 6121),
   (6160, 6169), (6470, 6479), (6608, 6617), (6784, 6793),
   (6800, 6809), (6992, 7001), (7088, 7097), (7232, 7241),
   (7248, 7257), (42528, 42537), (43216, 43225), (43264, 43273),
   (43472, 43481), (43504, 43513), (43600, 43609), (44016, 44025),
   (65296, 65305), (66720, 66729), (68912, 68921), (69734, 69743),
   (69872, 69881), (69942, 69951), (70096, 70105), (70384, 70393),
   (70736, 70745), (70864, 70873), (71248, 71257), (71360, 71369),
   (71472, 71481), (71904, 71913), (72016, 72025), (72784, 72793),
   (73040, 73049), (73120, 73129), (92768, 92777), (92864, 92873),
   (93008, 93017), (120782, 120831), (123200, 123209), (123632, 123641),
   (125264, 125273), (130032, 130041)]

/-- Full model of Python's `\d`: membership in a Unicode Nd range. -/
def isPyDigit (c : Char) : Bool :=
  ndRanges.any (fun r => decide (r.1 ≤ c.toNat ∧ c.toNat ≤ r.2))

/-- `validate_phone_number` under the full `\d` model (character level). -/
def validateCharsU : List Char → Bool
  | a :: d :: rest =>
      decide (a = '+') && decide (49 ≤ d.toNat ∧ d.toNat ≤ 57) &&
      ((e164Core rest).all isPyDigit &&
       decide (1 ≤ (e164Core rest).length ∧ (e164Core rest).length ≤ 14))
  | _ => false

/-- `validate_phone_number` under the full `\d` model. -/
def validate_phone_number_u (s : String) : Bool := validateCharsU s.data

/-- The character filter of `format_phone_number` (complement of
`[^\d+]`) under the full `\d` model. -/
def keepCharU (c : Char) : Bool := isPyDigit c || decide (c = '+')

/-- `format_phone_number` under the full `\d` model (character level). -/
def formatCharsU (l : List Char) : List Char :=
  if (l.filter keepCharU).head? = some '+' then l.filter keepCharU
  else '+' :: l.filter keepCharU

/-- `format_phone_number` under the full `\d` model. -/
def format_phone_number_u (s : String) : String := ⟨formatCharsU s.data⟩

/-- The amended spec shape: `'+'`, an ASCII first digit 1–9, and 1–14
further Unicode decimal digits. -/
def isE164CharsU : List Char → Bool
  | a :: d :: rest =>
      decide (a = '+') && decide (49 ≤ d.toNat ∧ d.toNat ≤ 57) &&
      (rest.all isPyDigit && decide (1 ≤ rest.length ∧ rest.length ≤ 14))
  | _ => false

/-- String-level wrapper of `isE164CharsU`. -/
def isE164SpecU (s : String) : Bool := isE164CharsU s.data

example : validate_phone_number_u (String.mk ['+', '1', Char.ofNat 1635]) = true := by decide
example : format_phone_number_u (String.mk [Char.ofNat 1635])
    = String.mk ['+', Char.ofNat 1635] := by decide
example : validate_phone_number_u "+14155551234" = true := by decide

theorem validateCharsU_cons (a d : Char) (rest : List Char) :
    validateCharsU (a :: d :: rest) =
      (decide (a = '+') && decide (49 ≤ d.toNat ∧ d.toNat ≤ 57) &&
       ((e164Core rest).all isPyDigit &&
        decide (1 ≤ (e164Core rest).length ∧ (e164Core rest).length ≤ 14))) := rfl

/-- On ASCII characters the full `\d` model coincides with the 0–9 one. -/
theorem isPyDigit_ascii {c : Char} (h : c.toNat < 128) : isPyDigit c = isDigitChar c := by
  by_cases hd : isDigitChar c = true
  · rw [hd]
    have hn := isDigitChar_nat hd
    simp [isPyDigit, ndRanges]
    omega
  · have hd' : isDigitChar c = false := by simpa using hd
    rw [hd']
    have hnot : ¬ isPyDigit c = true := by
      intro hpy
      simp [isPyDigit, ndRanges] at hpy
      have hn : ¬ (48 ≤ c.toNat ∧ c.toNat ≤ 57) := fun hc => hd (decide_eq_true hc)
      omega
    simpa using hnot

theorem all_congrMem {α : Type} {p q : α → Bool} {l : List α}
    (h : ∀ x ∈ l, p x = q x) : l.all p = l.all q := by
  induction l with
  | nil => rfl
  | cons x xs ih =>
    rw [List.all_cons, List.all_cons, h x (List.mem_cons_self x xs)]
    rw [ih (fun y hy => h y (List.mem_cons_of_mem x hy))]

/-- On ASCII inputs the full validator agrees with the ASCII-restricted
model used elsewhere in this file. -/
theorem validateCharsU_eq_ascii {l : List Char} (h : ∀ c ∈ l, c.toNat < 128) :
    validateCharsU l = validateChars l := by
  rcases l with _ | ⟨a, tl⟩
  · rfl
  · rcases tl with _ | ⟨d, rest⟩
    · rfl
    · rw [validateCharsU_cons, validateChars_cons]
      have hall : (e164Core rest).all isPyDigit = (e164Core rest).all isDigitChar := by
        apply all_congrMem
        intro c hc
        apply isPyDigit_ascii
        apply h
        have hcr : c ∈ rest := by
          unfold e164Core at hc
          by_cases hg : rest.getLast? = some '\n'
          · rw [if_pos hg] at hc
            exact List.dropLast_subset rest hc
          · rw [if_neg hg] at hc
            exact hc
        exact List.mem_cons_of_mem a (List.mem_cons_of_mem d hcr)
      rw [hall]

/-- The full validator agrees with the amended spec shape after the
trailing-newline trim (same argument as `validateChars_eq_spec`, under the
full digit model). -/
theorem validateCharsU_eq_spec (l : List Char) :
    validateCharsU l = isE164CharsU (e164Core l) := by
  rcases l with _ | ⟨a, tl⟩
  · rfl
  · rcases tl with _ | ⟨d, rest⟩
    · unfold e164Core
      by_cases hcond : [a].getLast? = some '\n'
      · rw [if_pos hcond]
        rfl
      · rw [if_neg hcond]
        rfl
    · rcases rest with _ | ⟨r, rs⟩
      · unfold e164Core
        by_cases hcond : [a, d].getLast? = some '\n'
        · rw [if_pos hcond]
          show validateCharsU [a, d] = isE164CharsU [a]
          simp [validateCharsU, isE164CharsU, e164Core]
        · rw [if_neg hcond]
          show validateCharsU [a, d] = isE164CharsU [a, d]
          simp [validateCharsU, isE164CharsU, e164Core]
      · have hg : (a :: d :: r :: rs).getLast? = (r :: rs).getLast? := by
          rw [List.getLast?_cons_cons, List.getLast?_cons_cons]
        by_cases hlf : (r :: rs).getLast? = some '\n'
        · have e1 : e164Core (r :: rs) = (r :: rs).dropLast := by
            unfold e164Core
            rw [if_pos hlf]
          have e2 : e164Core (a :: d :: r :: rs) = a :: d :: (r :: rs).dropLast := by
            unfold e164Core
            rw [hg, if_pos hlf, List.dropLast_cons₂, List.dropLast_cons₂]
          rw [validateCharsU_cons, e1, e2]
          rfl
        · have e1 : e164Core (r :: rs) = r :: rs := by
            unfold e164Core
            rw [if_neg hlf]
          have e2 : e164Core (a :: d :: r :: rs) = a :: d :: r :: rs := by
            unfold e164Core
            rw [hg, if_neg hlf]
          rw [validateCharsU_cons, e1, e2]
          rfl

theorem formatCharsU_head (l : List Char) : (formatCharsU l).head? = some '+' := by
  unfold formatCharsU
  by_cases h : (l.filter keepCharU).head? = some '+'
  · rw [if_pos h]
    exact h
  · rw [if_neg h]
    rfl

/-! ## Claims C3 and C10 under the full digit model -/

/-- C3 (counterexample): the validator as implemented accepts more than
`'+'` then 1–9 then 0–9 digits — `"+123\n"` is accepted because Python's
`$` matches before a trailing newline, and `"+1٣"` (with the Arabic-Indic
digit U+0663) is accepted because `\d` matches every Unicode decimal
digit. -/
theorem claim_C3_cex :
    validate_phone_number_u "+123\n" = true ∧ isE164Spec "+123\n" = false ∧
    validate_phone_number_u (String.mk ['+', '1', Char.ofNat 1635]) = true ∧
    isE164Spec (String.mk ['+', '1', Char.ofNat 1635]) = false := by
  exact ⟨by decide, by decide, by decide, by decide⟩

/-- C3 (amended): the validator returns true exactly when its input, after
removing a single trailing newline if present (Python's `$` anchor), is
`'+'` followed by an ASCII first digit 1–9 and 1–14 further Unicode
decimal digits (Python's `\d` is the Nd category, not only 0–9); on ASCII
inputs this coincides with the plain 0–9 reading, and the four quoted
evaluations hold. -/
theorem claim_C3 :
    (∀ s : String, validate_phone_number_u s = isE164SpecU (stripTrailingLf s)) ∧
    (∀ s : String, (∀ c ∈ s.data, c.toNat < 128) →
        validate_phone_number_u s = validate_phone_number s) ∧
    validate_phone_number_u "+14155551234" = true ∧
    validate_phone_number_u "4155551234" = false ∧
    validate_phone_number_u "+0123" = false ∧
    validate_phone_number_u "+123456789012345678" = false := by
  refine ⟨fun s => ?_, fun s h => validateCharsU_eq_ascii h,
          by decide, by decide, by decide, by decide⟩
  have h1 : isE164SpecU (stripTrailingLf s) = isE164CharsU (e164Core s.data) := by
    unfold isE164SpecU
    rw [stripTrailingLf_data]
  rw [h1]
  exact validateCharsU_eq_spec s.data

/-- C3 witness: the ASCII-agreement conjunct applied at a concrete ASCII
number. -/
theorem claim_C3_witness :
    validate_phone_number_u "+14155551234" = validate_phone_number "+14155551234" :=
  claim_C3.2.1 "+14155551234" (by decide)

/-- C10 (counterexample): `"٣"` (U+0663) contains no 0–9 digit and no
`'+'`, yet Python's `[^\d+]` keeps every Unicode digit, so the formatter
returns `"+٣"`, not `"+"`. -/
theorem claim_C10_cex :
    (String.mk [Char.ofNat 1635]).data.any isDigitChar = false ∧
    (String.mk [Char.ofNat 1635]).data.any (fun c => decide (c = '+')) = false ∧
    format_phone_number_u (String.mk [Char.ofNat 1635])
      = String.mk ['+', Char.ofNat 1635] ∧
    String.mk ['+', Char.ofNat 1635] ≠ "+" := by
  exact ⟨by decide, by decide, by decide, by decide⟩

/-- C10 (amended): the formatter's output always starts with `'+'`; when
the input contains no Unicode decimal digit and no `'+'` (for example the
empty string) the output is exactly `"+"`, which the validator rejects.
The embedding is a total function, matching the fact that the formatter
raises on no input.  (An input containing only a non-ASCII digit such as
`"٣"` is kept by `[^\d+]`, so it is excluded from the no-digit clause.) -/
theorem claim_C10 (s : String) :
    (format_phone_number_u s).data.head? = some '+' ∧
    ((∀ c ∈ s.data, keepCharU c = false) → format_phone_number_u s = "+") ∧
    validate_phone_number_u "+" = false := by
  refine ⟨formatCharsU_head s.data, fun h => ?_, by decide⟩
  have hnil : s.data.filter keepCharU = [] :=
    List.filter_eq_nil_iff.mpr (fun c hc => by rw [h c hc]; exact Bool.false_ne_true)
  unfold format_phone_number_u formatCharsU
  rw [hnil]
  rfl

/-- C10 witness: a digitless, plusless input formats to `"+"`. -/
theorem claim_C10_witness :
    (∀ c ∈ "ab".data, keepCharU c = false) ∧ format_phone_number_u "ab" = "+" :=
  ⟨by decide, (claim_C10 "ab").2.1 (by decide)⟩

/-! ## Recursion-limit-aware refinement of `json.loads`

Real `json.loads` raises `RecursionError` — not `JSONDecodeError` — when
the nesting of the input exceeds the interpreter recursion limit
(`sys.getrecursionlimit()`, 1000 by default), and the entrypoints'
`except json.JSONDecodeError` does not catch it.  `parseValD` refines the
total `jsonParse` model above with an explicit depth budget: each nested
value consumes one level, and exhausting the budget is a
`recursionError`.  The parser branches are otherwise those of `parseVal`,
with parse failures reported as `jsonDecodeError`. -/

inductive PyError where
  | jsonDecodeError : PyError
  | recursionError : PyError
  | attributeError : PyError
deriving DecidableEq

mutual

/-- Depth-aware JSON value parser (fuel for termination as in `parseVal`;
`depth` models the interpreter recursion budget). -/
def parseValD : Nat → Nat → List Char → Except PyError (Json × List Char)
  | 0, _, _ => .error .jsonDecodeError
  | fuel + 1, depth, cs =>
    match depth with
    | 0 => .error .recursionError
    | depth' + 1 =>
      match skipWs cs with
      | [] => .error .jsonDecodeError
      | c :: rest =>
        if c = quoteChar then
          match scanStr rest with
          | some r => .ok (.str ⟨r.1⟩, r.2)
          | none => .error .jsonDecodeError
        else if c = lbraceChar then
          match skipWs rest with
          | [] => .error .jsonDecodeError
          | c2 :: rest2 =>
            if c2 = rbraceChar then .ok (.obj [], rest2)
            else parseObjBodyD fuel depth' (c2 :: rest2) []
        else if c = '[' then
          match skipWs rest with
          | [] => .error .jsonDecodeError
          | c2 :: rest2 =>
            if c2 = ']' then .ok (.arr [], rest2)
            else parseArrBodyD fuel depth' (c2 :: rest2) []
        else if c = 't' then
          match stripLit "rue".data rest with
          | some r => .ok (.bool true, r)
          | none => .error .jsonDecodeError
        else if c = 'f' then
          match stripLit "alse".data rest with
          | some r => .ok (.bool false, r)
          | none => .error .jsonDecodeError
        else if c = 'n' then
          match stripLit "ull".data rest with
          | some r => .ok (.null, r)
          | none => .error .jsonDecodeError
        else if c = 'N' then
          match stripLit "aN".data rest with
          | some r => .ok (.num "NaN", r)
          | none => .error .jsonDecodeError
        else if c = 'I' then
          match stripLit "nfinity".data rest with
          | some r => .ok (.num "Infinity", r)
          | none => .error .jsonDecodeError
        else if c = '-' then
          match rest with
          | 'I' :: rest2 =>
            match stripLit "nfinity".data rest2 with
            | some r => .ok (.num "-Infinity", r)
            | none => .error .jsonDecodeError
          | _ =>
            match parseNum (c :: rest) with
            | some r => .ok r
            | none => .error .jsonDecodeError
        else
          match parseNum (c :: rest) with
          | some r => .ok r
          | none => .error .jsonDecodeError

/-- Depth-aware object-member parser. -/
def parseObjBodyD : Nat → Nat → List Char → List (String × Json) →
    Except PyError (Json × List Char)
  | 0, _, _, _ => .error .jsonDecodeError
  | fuel + 1, depth, cs, acc =>
    match skipWs cs with
    | [] => .error .jsonDecodeError
    | c :: rest =>
      if c = quoteChar then
        match scanStr rest with
        | none => .error .jsonDecodeError
        | some (key, rest1) =>
          match skipWs rest1 with
          | [] => .error .jsonDecodeError
          | c2 :: rest2 =>
            if c2 = ':' then
              match parseValD fuel depth rest2 with
              | .error e => .error e
              | .ok (v, rest3) =>
                match skipWs rest3 with
                | [] => .error .jsonDecodeError
                | c3 :: rest4 =>
                  if c3 = ',' then parseObjBodyD fuel depth rest4 (acc ++ [(⟨key⟩, v)])
                  else if c3 = rbraceChar then .ok (.obj (acc ++ [(⟨key⟩, v)]), rest4)
                  else .error .jsonDecodeError
            else .error .jsonDecodeError
      else .error .jsonDecodeError

/-- Depth-aware array-element parser. -/
def parseArrBodyD : Nat → Nat → List Char → List Json →
    Except PyError (Json × List Char)
  | 0, _, _, _ => .error .jsonDecodeError
  | fuel + 1, depth, cs, acc =>
    match parseValD fuel depth cs with
    | .error e => .error e
    | .ok (v, rest) =>
      match skipWs rest with
      | [] => .error .jsonDecodeError
      | c :: rest2 =>
        if c = ',' then parseArrBodyD fuel depth rest2 (acc ++ [v])
        else if c = ']' then .ok (.arr (acc ++ [v]), rest2)
        else .error .jsonDecodeError

end

/-- `json.loads` under recursion budget `limit`.  The fuel
`2 * length + 2` over-approximates the parser's call count (at most two
fuel units per consumed character), so the fuel never decides before the
input or the recursion budget does. -/
def jsonLoadsD (limit : Nat) (s : String) : Except PyError Json :=
  match parseValD (2 * s.data.length + 2) limit s.data with
  | .ok (v, rest) => if skipWs rest = [] then .ok v else .error .jsonDecodeError
  | .error e => .error e

/-- Metadata handling of the worker entrypoints refined with the recursion
limit of `json.loads`: `except json.JSONDecodeError` catches only decode
errors, so a `RecursionError` escapes the entrypoint; a decoded non-dict
still raises `AttributeError` at `.get`. -/
def entrypointModeD (limit : Nat) (metadata : Option String) : Except PyError CallMode :=
  let pn : Except PyError (Option Json) :=
    match metadata with
    | none => .ok none
    | some m =>
      if m = "" then .ok none
      else
        match jsonLoadsD limit m with
        | .error .jsonDecodeError => .ok none
        | .error e => .error e
        | .ok (.obj kvs) => .ok (dictGet "phone_number" kvs)
        | .ok _ => .error .attributeError
  match pn with
  | .error e => .error e
  | .ok pnv =>
    .ok (match pnv with
         | some v => if jsonTruthy v then .outbound v else .inbound
         | none => .inbound)

example : jsonLoadsD 1000 "\x7b\"a\": 1\x7d" = .ok (.obj [("a", .num "1")]) := rfl
example : jsonLoadsD 3 "[[1]]" = .ok (.arr [.arr [.num "1"]]) := rfl
example : jsonLoadsD 2 "[[1]]" = .error .recursionError := rfl
example : jsonLoadsD 1000 "oops" = .error .jsonDecodeError := rfl

/-- Metadata of 1001 nested `[`, exceeding CPython's default recursion
limit of 1000. -/
def deepBrackets : String := String.mk (List.replicate 1001 '[')

/-- Nesting deeper than the depth budget exhausts it before anything
else: a run of more than `L` opening brackets is a `recursionError` under
budget `L` (the fuel bound `2L + 2` is never the binding constraint). -/
theorem parseValD_deep : ∀ (L fuel n : Nat), L < n → 2 * L + 2 ≤ fuel →
    parseValD fuel L (List.replicate n '[') = .error .recursionError := by
  intro L
  induction L with
  | zero =>
    intro fuel n hn hf
    rcases fuel with _ | f
    · omega
    · rfl
  | succ L ih =>
    intro fuel n hn hf
    rcases fuel with _ | f
    · omega
    rcases f with _ | f'
    · omega
    rcases n with _ | n'
    · omega
    rcases n' with _ | n''
    · omega
    rw [List.replicate_succ, List.replicate_succ]
    show parseValD (f' + 1 + 1) (L + 1) ('[' :: '[' :: List.replicate n'' '[') = _
    have hrec := ih f' (n'' + 1) (by omega) (by omega)
    rw [List.replicate_succ] at hrec
    simp +decide only [parseValD, parseArrBodyD, skipWs, isJsonWs, if_true, if_false]
    rw [hrec]

/-- The 1001-bracket metadata exceeds the default recursion limit 1000. -/
theorem jsonLoadsD_deepBrackets :
    jsonLoadsD 1000 deepBrackets = .error .recursionError := by
  show jsonLoadsD 1000 (String.mk (List.replicate 1001 '[')) = _
  unfold jsonLoadsD
  rw [string_mk_data, List.length_replicate]
  rw [parseValD_deep 1000 (2 * 1001 + 2) 1001 (by omega) (by omega)]

/-- C6 (counterexample): deeply nested malformed metadata makes
`json.loads` raise `RecursionError`, which `except json.JSONDecodeError`
does not catch, so the entrypoint fails with an error instead of falling
back to the inbound greeting. -/
theorem claim_C6_cex :
    jsonLoadsD 1000 deepBrackets = .error .recursionError ∧
    entrypointModeD 1000 (some deepBrackets) = .error .recursionError := by
  have hne : ¬ deepBrackets = "" := by decide
  exact ⟨jsonLoadsD_deepBrackets,
         by simp [entrypointModeD, hne, jsonLoadsD_deepBrackets]⟩

/-- C6 (amended): metadata rejected by the parser with `JSONDecodeError`,
and absent or empty metadata, degrade gracefully to inbound behaviour —
the proactive greeting — but metadata whose nesting exceeds the recursion
limit makes `json.loads` raise `RecursionError`, which the entrypoint does
not catch. -/
theorem claim_C6 :
    (∀ (limit : Nat) (m : String),
        jsonLoadsD limit m = .error .jsonDecodeError →
        entrypointModeD limit (some m) = .ok .inbound) ∧
    (∀ limit : Nat,
        entrypointModeD limit none = .ok .inbound ∧
        entrypointModeD limit (some "") = .ok .inbound) ∧
    (∀ (limit : Nat) (m : String), m ≠ "" →
        jsonLoadsD limit m = .error .recursionError →
        entrypointModeD limit (some m) = .error .recursionError) ∧
    greetingOf .inbound
      = some "Hello! This is your AI assistant. How can I help you today?" := by
  refine ⟨fun limit m h => ?_, fun limit => ⟨rfl, rfl⟩, fun limit m hne h => ?_, rfl⟩
  · by_cases hm : m = ""
    · simp [entrypointModeD, hm]
    · simp [entrypointModeD, hm, h]
  · simp [entrypointModeD, hne, h]

/-- C6 witness: the decode-error fallback at `"oops"` and the uncaught
recursion error at the deeply nested input, both concrete. -/
theorem claim_C6_witness :
    jsonLoadsD 1000 "oops" = .error .jsonDecodeError ∧
    entrypointModeD 1000 (some "oops") = .ok .inbound ∧
    deepBrackets ≠ "" ∧
    entrypointModeD 1000 (some deepBrackets) = .error .recursionError :=
  ⟨rfl, claim_C6.1 1000 "oops" rfl, by decide,
   claim_C6.2.2.1 1000 deepBrackets (by decide) jsonLoadsD_deepBrackets⟩
